import Mathlib

/-!
# registrator-containerd: the bridge engine

A shallow embedding of `bridge/bridge.go`, `bridge/types.go` and the parts of
`pkg/ctrclient` that the bridge reads, followed by theorems about it.

Conventions of the embedding

* A Go `map[string]V` is an association list `GoMap V`: lookup takes the first
  binding of a key, `delete` drops every binding of it, assignment drops the old
  bindings and appends the new one.  Go leaves the order of `range` over a map
  unspecified; `rangeOrder` produces that order from a list of picks, so every
  order can be chosen and every choice is a rearrangement of the entries.
* A Go slice is a `List`; the `nil` slice is `[]` (the bridge only builds
  slices with `append`, so it never holds an empty slice that is not `nil`).
* Go `int` is the 64-bit machine integer: an `Int` wrapped by `wrapInt`.
* `*Service` values are never written after `newService` returns, so a pointer
  to a service is the service value.
* The registry adapter and the container runtime are external: the adapter is
  an oracle that answers from the calls made so far (`Bridge.calls` records
  them, oldest first), the runtime is a snapshot handed to each operation.
* Every public operation holds the bridge lock from start to end, so an
  operation is one atomic step on the bridge state.
-/

namespace Registrator

/-! ## Go strings -/

/-- Go `strings.HasPrefix`. -/
def hasPrefix (s p : String) : Bool := p.data.isPrefixOf s.data

/-- Go `strings.TrimPrefix`. -/
def trimPrefix (s p : String) : String :=
  if hasPrefix s p then String.mk (s.data.drop p.data.length) else s

/-- Go `unicode.ToLower` on one rune: for a rune up to `MaxASCII` the letters
`A` to `Z` move to `a` to `z` and every other rune stays; for a rune beyond
ASCII the result is read from the case tables of the `unicode` package, which
are the parameter `lower`. -/
def toLowerRune (lower : Char → Char) (c : Char) : Char :=
  if c.toNat < 128 then Char.toLower c else lower c

/-- Go `strings.ToLower`: `unicode.ToLower` on every rune of the string. -/
def toLower (lower : Char → Char) (s : String) : String :=
  String.mk (s.data.map (toLowerRune lower))

/-- Split a character list at the first occurrence of `sep`: the part before it
and, when `sep` occurs, the part after it. -/
def cutFirst (sep : Char) : List Char → List Char × Option (List Char)
  | [] => ([], none)
  | c :: cs =>
    if c = sep then ([], some cs)
    else ((c :: (cutFirst sep cs).1), (cutFirst sep cs).2)

/-- Go `strings.SplitN(s, "_", 2)`: `portkey[0]` and, when `len(portkey) > 1`,
`portkey[1]`. -/
def splitN2 (s : String) : String × Option String :=
  (String.mk (cutFirst '_' s.data).1, (cutFirst '_' s.data).2.map String.mk)

/-- Split a character list at every occurrence of `sep`. -/
def splitAll (sep : Char) : List Char → List (List Char)
  | [] => [[]]
  | c :: cs =>
    if c = sep then [] :: splitAll sep cs
    else
      match splitAll sep cs with
      | [] => [[c]]
      | h :: t => (c :: h) :: t

/-- Go `strings.Split(s, ",")`. -/
def splitComma (s : String) : List String := (splitAll ',' s.data).map String.mk

/-- Smallest value of a Go `int` (64 bit). -/
def minInt : Int := -(2 ^ 63)

/-- Largest value of a Go `int` (64 bit). -/
def maxInt : Int := 2 ^ 63 - 1

/-- Two's complement wrap-around of a Go `int`. -/
def wrapInt (x : Int) : Int := (x + 2 ^ 63) % 2 ^ 64 - 2 ^ 63

/-- Value of a list of decimal digits, `none` when a character is not a digit. -/
def digitsValue : List Char → Nat → Option Nat
  | [], acc => some acc
  | c :: cs, acc =>
    if c.isDigit then digitsValue cs (acc * 10 + (c.toNat - 48)) else none

/-- Go `strconv.Atoi`: an optional sign, then one or more decimal digits, and the
value has to fit an `int`; `none` is a non-nil `err`. -/
def atoi (s : String) : Option Int :=
  let body (neg : Bool) (ds : List Char) : Option Int :=
    match ds with
    | [] => none
    | _ =>
      match digitsValue ds 0 with
      | none => none
      | some n =>
        let v : Int := if neg then -(n : Int) else (n : Int)
        if minInt ≤ v ∧ v ≤ maxInt then some v else none
  match s.data with
  | [] => none
  | '-' :: ds => body true ds
  | '+' :: ds => body false ds
  | ds => body false ds

/-- Go `strconv.Itoa`. -/
def itoa (n : Int) : String :=
  match n with
  | Int.ofNat k => String.mk (Nat.toDigits 10 k)
  | Int.negSucc k => String.mk ('-' :: Nat.toDigits 10 (k + 1))

/-! ## Go maps -/

/-- Go `map[string]V`. -/
abbrev GoMap (V : Type) := List (String × V)

namespace GoMap

variable {V : Type}

/-- Go `v, ok := m[k]`. -/
def get? : GoMap V → String → Option V
  | [], _ => none
  | (k', v) :: m, k => if k' = k then some v else get? m k

/-- Go `delete(m, k)`. -/
def delete (m : GoMap V) (k : String) : GoMap V := m.filter (fun e => decide (e.1 ≠ k))

/-- Go `m[k] = v`. -/
def set (m : GoMap V) (k : String) (v : V) : GoMap V := delete m k ++ [(k, v)]

/-- Keys of the map. -/
def keys (m : GoMap V) : List String := m.map Prod.fst

end GoMap

/-- Order of a Go `range` over a map: the next element is picked among the
remaining ones by the next pick; without picks the remaining elements come in
list order. -/
def rangeOrder {α : Type} : List Nat → List α → List α
  | [], l => l
  | p :: ps, l =>
    match l.get? (p % l.length) with
    | some y => y :: rangeOrder ps (l.eraseIdx (p % l.length))
    | none => l

/-! ## Data model (`bridge/types.go`, `pkg/ctrclient`) -/

/-- Element of `metadataConfig.Envs`. -/
structure EnvMetadata where
  Key : String
  Value : String
deriving DecidableEq

/-- The `portMapping` of `container_metadata.go`. -/
structure PortMapping where
  Name : String
  HostPort : Int
  ContainerPort : Int
  Protocol : String
deriving DecidableEq

/-- The `metadataConfig` of `container_metadata.go`. -/
structure MetadataConfig where
  Metadata : GoMap String
  HostName : String
  Labels : GoMap String
  Annotations : GoMap String
  Envs : List EnvMetadata
deriving DecidableEq

/-- The `internalContainerMetadata` of `container_metadata.go`. -/
structure InternalContainerMetadata where
  ID : String
  Name : String
  SandBoxID : String
  IP : String
  LogPath : String
  Config : MetadataConfig
deriving DecidableEq

/-- The `ContainerMetadata` of `container_metadata.go`. -/
structure ContainerMetadata where
  Version : String
  Metadata : InternalContainerMetadata
deriving DecidableEq

/-- The `Process` of `container_spec.go`. -/
structure Process where
  Env : List String
  Args : List String
deriving DecidableEq

/-- The `ContainerSpec` of `container_spec.go`. -/
structure ContainerSpec where
  OciVersion : String
  Process : Registrator.Process
  Annotations : GoMap String
deriving DecidableEq

/-- The `K8SScheduleContainer` of `types.go`.  The raw records `Container` and
`SandBoxContainer` are never read after the bundle is built and are left out;
`getK8SScheduleContainer` sets the three pointers it keeps, so they are values. -/
structure K8SScheduleContainer where
  ID : String
  Name : String
  ContainerMetadata : Registrator.ContainerMetadata
  ContainerSpec : Registrator.ContainerSpec
  SandBoxMetadata : Registrator.ContainerMetadata
deriving DecidableEq

/-- The `ServicePort` of `types.go`; `container` is the bundle the pointer refers to. -/
structure ServicePort where
  HostPort : String
  HostIP : String
  ExposedPort : String
  ExposedIP : String
  PortType : String
  ContainerHostname : String
  ContainerID : String
  ContainerName : String
  container : K8SScheduleContainer
deriving DecidableEq

/-- The `Service` of `types.go`. -/
structure Service where
  ID : String
  Name : String
  Port : Int
  IP : String
  Tags : List String
  Attrs : GoMap String
  TTL : Int
  AgentId : String
  Origin : ServicePort
deriving DecidableEq

/-- The `DeadContainer` of `types.go`. -/
structure DeadContainer where
  TTL : Int
  Services : List Service
deriving DecidableEq

/-- The `Config` of `types.go`. -/
structure Config where
  HostIp : String
  Internal : Bool
  Explicit : Bool
  UseIpFromLabel : String
  ForceTags : String
  RefreshTtl : Int
  RefreshInterval : Int
  DeregisterCheck : String
  Cleanup : Bool
  DataCenterId : String
deriving DecidableEq

/-! ## Metadata and service construction (`bridge/bridge.go`) -/

/-- The loop of `GetEnv` over the entries `KEY=value` of the environment: the
value of the first entry whose key is `envKey`, the empty string when there is
none; an entry without `=` is skipped. -/
def getEnvLoop (envKey : String) : List String → String
  | [] => ""
  | envData :: rest =>
    match (cutFirst '=' envData.data).2 with
    | none => getEnvLoop envKey rest
    | some value =>
      if String.mk (cutFirst '=' envData.data).1 = envKey then String.mk value
      else getEnvLoop envKey rest

/-- Go `spec.GetEnv(envKey)`. -/
def GetEnv (spec : ContainerSpec) (envKey : String) : String :=
  getEnvLoop envKey spec.Process.Env

/-- One iteration of the loop of `serviceMetaData` for the entry `kv`, on the
pair `(metadata, metadataFromPort)`. -/
def metaStep (lower : Char → Char) (port : String) (st : GoMap String × GoMap Bool) (kv : EnvMetadata) :
    GoMap String × GoMap Bool :=
  if hasPrefix kv.Key "SERVICE_" then
    let key := toLower lower (trimPrefix kv.Key "SERVICE_")
    if st.2.get? key = some true then st
    else
      let portkey := splitN2 key
      match atoi portkey.1, portkey.2 with
      | some _, some rest =>
        if portkey.1 ≠ port then st
        else (st.1.set rest kv.Value, st.2.set rest true)
      | _, _ => (st.1.set key kv.Value, st.2)
  else st

/-- Go `serviceMetaData(container, port)`: `(metadata, metadataFromPort)`. -/
def serviceMetaData (lower : Char → Char) (container : K8SScheduleContainer) (port : String) :
    GoMap String × GoMap Bool :=
  container.ContainerMetadata.Metadata.Config.Envs.foldl (metaStep lower port) ([], [])

/-- Modelled from the spec: `mapDefault` is called by `newService` and is not
among the sources; it reads an attribute of the metadata mapping and gives the
default when the mapping has no value for the key. -/
def mapDefault (m : GoMap String) (key default : String) : String :=
  match m.get? key with
  | some v => if v = "" then default else v
  | none => default

/-- Modelled from the spec: `combineTags` is called by `newService` and is not
among the sources; the tags are, in order, the comma-separated tags of each
part, a part that is empty supplying none. -/
def combineTags (tagParts : List String) : List String :=
  (tagParts.filter (fun e => decide (e ≠ ""))).flatMap splitComma

/-- Go `(b *Bridge) newService(port, isGroup)`; `none` is the `nil` service.
`Hostname` is the package variable, `config` is `b.config`. -/
def newService (lower : Char → Char) (Hostname : String) (config : Config) (port : ServicePort) (isGroup : Bool) :
    Option Service :=
  let container := port.container
  let md := serviceMetaData lower port.container port.ExposedPort
  let metadata := md.1
  let metadataFromPort := md.2
  if mapDefault metadata "ignore" "" ≠ "" then none
  else
    let serviceName := mapDefault metadata "name" ""
    if serviceName = "" then none
    else
      let serviceName :=
        if isGroup ∧ ¬ (metadataFromPort.get? "name" = some true) then
          serviceName ++ "-" ++ port.ExposedPort
        else serviceName
      match atoi port.ExposedPort with
      | none => none
      | some p =>
        let metadata := ((metadata.delete "id").delete "tags").delete "name"
        let defaultID := Hostname ++ ":" ++ container.Name ++ ":" ++ port.ExposedPort
        let tags :=
          if port.PortType = "udp" then
            combineTags [mapDefault metadata "tags" "", config.ForceTags, "udp"]
          else combineTags [mapDefault metadata "tags" "", config.ForceTags]
        let id1 := if port.PortType = "udp" then defaultID ++ ":udp" else defaultID
        let id := mapDefault metadata "id" ""
        some
          { ID := if id ≠ "" then id else id1
            Name := serviceName
            Port := p
            IP := port.ExposedIP
            Tags := tags
            Attrs := metadata
            TTL := config.RefreshTtl
            AgentId := ""
            Origin := port }

/-- Go `(b *Bridge) extractK8SSchedulePorts(container, ports)` on the empty map
`ports`.  `unmarshal` is `json.Unmarshal` into `[]portMapping` (`none` is an
error), applied by `GetPortMapping` to the ports annotation. -/
def extractK8SSchedulePorts (lower : Char → Char) (unmarshal : String → Option (List PortMapping))
    (c : K8SScheduleContainer) : GoMap ServicePort :=
  let containerMeta := c.ContainerMetadata
  let sandboxMeta := c.SandBoxMetadata
  let containerSpec := c.ContainerSpec
  if GetEnv containerSpec "SERVICE_IGNORE" ≠ "" then []
  else
    let portsJSON :=
      (containerMeta.Metadata.Config.Annotations.get? "io.kubernetes.container.ports").getD ""
    if portsJSON = "" then []
    else
      match unmarshal portsJSON with
      | none => []
      | some portMappings =>
        portMappings.foldl
          (fun ports portMapping =>
            ports.set (itoa portMapping.ContainerPort)
              { HostPort := ""
                HostIP := ""
                ExposedPort := itoa portMapping.ContainerPort
                ExposedIP := sandboxMeta.Metadata.IP
                PortType := toLower lower portMapping.Protocol
                ContainerHostname := GetEnv containerSpec "HOSTNAME"
                ContainerID := c.ID
                ContainerName := containerMeta.Metadata.Name
                container := c })
          []

/-! ## The service-ID pattern -/

/-- Character class `[a-zA-Z0-9]`. -/
def isAlnum (c : Char) : Bool := c.isAlpha || c.isDigit

/-- Character class `[a-zA-Z0-9_.-]`. -/
def isNameChar (c : Char) : Bool := isAlnum c || c = '_' || c = '.' || c = '-'

/-- Does the text match `[0-9]+(?::udp)?$`?  The digits are taken greedily; a
shorter run would be followed by a digit, which neither `:udp` nor the end of
the text accepts. -/
def matchPortTail (s : List Char) : Bool :=
  !(s.takeWhile Char.isDigit).isEmpty &&
    (s.dropWhile Char.isDigit == [] || s.dropWhile Char.isDigit == ":udp".data)

/-- Match `([a-zA-Z0-9][a-zA-Z0-9_.-]+):[0-9]+(?::udp)?$` at the start of the
text and give the text of the group.  The class is taken greedily; a shorter run
would be followed by a character of the class, which is not the `:` required. -/
def matchNameTail : List Char → Option (List Char)
  | [] => none
  | c :: cs =>
    if isAlnum c then
      match cs.takeWhile isNameChar, cs.dropWhile isNameChar with
      | [], _ => none
      | run, ':' :: t => if matchPortTail t then some (c :: run) else none
      | _, _ => none
    else none

/-- The lazy group `(.+?)` of the pattern followed by `:` and the rest: `acc` is
what the group has taken so far, and the group stops at the first `:` after
which the rest of the pattern matches.  `.` does not match a line feed. -/
def matchHost (acc : List Char) : List Char → Option (List Char × List Char)
  | [] => none
  | c :: cs =>
    match (if acc ≠ [] ∧ c = ':' then matchNameTail cs else none) with
    | some name => some (acc, name)
    | none => if c = '\n' then none else matchHost (acc ++ [c]) cs

/-- Go `serviceIDPattern.FindStringSubmatch(id)` for the pattern
`^(.+?):([a-zA-Z0-9][a-zA-Z0-9_.-]+):[0-9]+(?::udp)?$`: `matches[1]` and
`matches[2]` when the text matches (`len(matches) == 3`), `none` otherwise. -/
def serviceIDPattern (id : String) : Option (String × String) :=
  (matchHost [] id.data).map (fun m => (String.mk m.1, String.mk m.2))

/-! ## The registry adapter and the runtime -/

/-- Go `error`: `none` is `nil`. -/
abbrev GoError := Option String

/-- A call made on the registry adapter. -/
inductive RegCall where
  | RegisterAgentNode (dataCenterId hostIp : String)
  | Ping (agentId : String)
  | Register (service : Service)
  | Deregister (service : Service)
  | Refresh (service : Service)
  | Services (agentId : String)
deriving DecidableEq

/-- The `RegistryAdapter` interface of `types.go`: every method answers from the
calls made before it and its arguments. -/
structure RegistryAdapter where
  RegisterAgentNode : List RegCall → String → String → Except String String
  Ping : List RegCall → String → GoError
  Register : List RegCall → Service → GoError
  Deregister : List RegCall → Service → GoError
  Refresh : List RegCall → Service → GoError
  Services : List RegCall → String → Except String (List Service)

/-- A `typeurl.Any` holding JSON for a value of type `α`: `none` when
`GetValue()` is `nil`, `some none` when `json.Unmarshal` rejects the bytes,
`some (some a)` when they decode to `a`. -/
abbrev JsonAny (α : Type) := Option (Option α)

/-- The fields of containerd's `containers.Container` that the bridge reads.
`Spec` is `none` for the `nil` interface. -/
structure ContainerRecord where
  ID : String
  Labels : GoMap String
  Extensions : GoMap (JsonAny ContainerMetadata)
  Spec : Option (JsonAny ContainerSpec)

/-- What the container runtime answers during one operation of the bridge, and
the picks that order the `range` loops of that operation. -/
structure Runtime where
  Get : String → Option ContainerRecord
  Containers : Except String (List String)
  Status : String → Except String String
  picks : List Nat

/-- The package variable `Hostname`, the registry adapter `b.registry` and
`json.Unmarshal` on port-mapping lists. -/
structure Env where
  lower : Char → Char
  Hostname : String
  registry : RegistryAdapter
  unmarshalPorts : String → Option (List PortMapping)

/-- The `Bridge` of `bridge.go`: the two maps, the configuration and the agent
id, with the calls made on the registry so far. -/
structure Bridge where
  services : GoMap (List Service)
  deadContainers : GoMap DeadContainer
  config : Config
  agentId : String
  calls : List RegCall
deriving DecidableEq

/-- Go `b.services[containerId]`: the `nil` slice when the key is absent. -/
def Bridge.live (b : Bridge) (containerId : String) : List Service :=
  (b.services.get? containerId).getD []

/-- Go `New`, once the adapter factory is found: both maps empty, no agent id. -/
def New (config : Config) : Bridge :=
  { services := [], deadContainers := [], config := config, agentId := "", calls := [] }

/-- Go `m.Unmarshal(metaData)` of `ContainerMetadata` and of `ContainerSpec`:
an error for the `nil` interface, for a `nil` value and for rejected JSON. -/
def unmarshalAny {α : Type} (data : Option (JsonAny α)) : Option α :=
  match data with
  | some (some (some a)) => some a
  | _ => none

/-- Go `(b *Bridge) getK8SScheduleContainer(containerId)`: `.error` for a non-nil
error, `.ok none` for `(nil, nil)`. -/
def getK8SScheduleContainer (rt : Runtime) (containerId : String) :
    Except String (Option K8SScheduleContainer) :=
  match rt.Get containerId with
  | none => .error "get container info failed"
  | some container =>
    if (container.Labels.get? "io.kubernetes.pod.uid").getD "" = "" then .ok none
    else if (container.Labels.get? "io.cri-containerd.kind").getD "" ≠ "container" then .ok none
    else
      match container.Extensions.get? "io.cri-containerd.container.metadata" with
      | none => .ok none
      | some none => .ok none
      | some (some none) => .error "unmarshal ContainerMetadata error"
      | some (some (some containerMeta)) =>
        match rt.Get containerMeta.Metadata.SandBoxID with
        | none => .error "get container sandbox failed"
        | some sandboxContainerInfo =>
          match unmarshalAny (sandboxContainerInfo.Extensions.get?
              "io.cri-containerd.sandbox.metadata") with
          | none => .error "unmarshal SandboxMetadata failed"
          | some sandboxMeta =>
            match unmarshalAny container.Spec with
            | none => .error "unmarshal containerSpec failed"
            | some containerSpec =>
              .ok (some
                { ID := containerId
                  Name := containerMeta.Metadata.Name
                  ContainerMetadata := containerMeta
                  ContainerSpec := containerSpec
                  SandBoxMetadata := sandboxMeta })

/-! ## The operations of the bridge -/

/-- Record a call on the registry. -/
def Bridge.call (b : Bridge) (c : RegCall) : Bridge := { b with calls := b.calls ++ [c] }

/-- Body of the loop of `add` for one port: build the service, register it, and
record it in the live map when `Register` gave no error. -/
def addPort (env : Env) (c : K8SScheduleContainer) (isGroup : Bool) (b : Bridge)
    (port : ServicePort) : Bridge :=
  match newService env.lower env.Hostname b.config port isGroup with
  | none => b
  | some service =>
    match env.registry.Register b.calls service with
    | some _ => b.call (.Register service)
    | none =>
      { b.call (.Register service) with
        services := b.services.set c.ID (b.live c.ID ++ [service]) }

/-- First statement of `add`: a grace entry of the container is moved back into
the live map and dropped from the dead-containers map. -/
def addResurrect (b : Bridge) (containerId : String) : Bridge :=
  match b.deadContainers.get? containerId with
  | some d =>
    { b with
      services := b.services.set containerId d.Services
      deadContainers := b.deadContainers.delete containerId }
  | none => b

/-- Go `(b *Bridge) add(containerId, quiet)`. -/
def add (env : Env) (rt : Runtime) (b : Bridge) (containerId : String) (quiet : Bool) : Bridge :=
  if (addResurrect b containerId).live containerId ≠ [] then addResurrect b containerId
  else
    match getK8SScheduleContainer rt containerId with
    | .error _ => addResurrect b containerId
    | .ok none => addResurrect b containerId
    | .ok (some c) =>
      if (extractK8SSchedulePorts env.lower env.unmarshalPorts c).length = 0 ∧ quiet = false then
        addResurrect b containerId
      else
        (rangeOrder rt.picks (extractK8SSchedulePorts env.lower env.unmarshalPorts c)).foldl
          (fun b kv =>
            addPort env c (decide ((extractK8SSchedulePorts env.lower env.unmarshalPorts c).length > 1))
              b kv.2)
          (addResurrect b containerId)

/-- Go `(b *Bridge) Add(containerId)`. -/
def Add (env : Env) (rt : Runtime) (b : Bridge) (containerId : String) : Bridge :=
  add env rt b containerId false

/-- The closure `deregisterAll` of `remove`: `Deregister` on every service of the
slice; an error is logged and the loop goes on. -/
def deregisterAll (env : Env) (b : Bridge) (services : List Service) : Bridge :=
  services.foldl
    (fun b service =>
      match env.registry.Deregister b.calls service with
      | some _ => b.call (.Deregister service)
      | none => b.call (.Deregister service))
    b

/-- Go `(b *Bridge) remove(containerId, deregister)`. -/
def remove (env : Env) (b : Bridge) (containerId : String) (deregister : Bool) : Bridge :=
  let b1 : Bridge :=
    if deregister then
      let b2 := deregisterAll env b (b.live containerId)
      match b2.deadContainers.get? containerId with
      | some d =>
        { deregisterAll env b2 d.Services with
          deadContainers := b2.deadContainers.delete containerId }
      | none => b2
    else if b.config.RefreshTtl ≠ 0 ∧ b.live containerId ≠ [] then
      { b with
        deadContainers :=
          b.deadContainers.set containerId
            { TTL := b.config.RefreshTtl, Services := b.live containerId } }
    else b
  { b1 with services := b1.services.delete containerId }

/-- Go `(b *Bridge) Remove(containerId)`. -/
def Remove (env : Env) (b : Bridge) (containerId : String) : Bridge :=
  remove env b containerId true

/-- Go `(b *Bridge) shouldRemove(containerId)`. -/
def shouldRemove (rt : Runtime) (b : Bridge) (containerId : String) : Bool :=
  if b.config.DeregisterCheck = "always" then true
  else
    match rt.Status containerId with
    | .error _ => false
    | .ok status => if status = "running" then false else true

/-- Go `(b *Bridge) RemoveOnExit(containerId)`. -/
def RemoveOnExit (env : Env) (rt : Runtime) (b : Bridge) (containerId : String) : Bridge :=
  remove env b containerId (shouldRemove rt b containerId)

/-- First loop of `Refresh` on one entry of the dead-containers map: the TTL goes
down by the refresh interval and the entry is deleted when it is not positive. -/
def refreshDead (config : Config) (e : String × DeadContainer) : Option (String × DeadContainer) :=
  if wrapInt (e.2.TTL - config.RefreshInterval) ≤ 0 then none
  else some (e.1, { e.2 with TTL := wrapInt (e.2.TTL - config.RefreshInterval) })

/-- The registry heartbeat of `Refresh` for the services of one container; an
error is logged and the loop goes on. -/
def refreshAll (env : Env) (b : Bridge) (services : List Service) : Bridge :=
  services.foldl
    (fun b service =>
      match env.registry.Refresh b.calls service with
      | some _ => b.call (.Refresh service)
      | none => b.call (.Refresh service))
    b

/-- Go `(b *Bridge) Refresh()`. -/
def Refresh (env : Env) (rt : Runtime) (b : Bridge) : Bridge :=
  let b1 : Bridge :=
    { b with deadContainers := b.deadContainers.filterMap (refreshDead b.config) }
  (rangeOrder rt.picks b1.services).foldl (fun b kv => refreshAll env b kv.2) b1

/-- Go `(b *Bridge) Ping()`. -/
def Ping (env : Env) (b : Bridge) : Bridge :=
  match env.registry.Ping b.calls b.agentId with
  | some _ => b.call (.Ping b.agentId)
  | none =>
    match env.registry.RegisterAgentNode (b.calls ++ [.Ping b.agentId])
        b.config.DataCenterId b.config.HostIp with
    | .error _ =>
      (b.call (.Ping b.agentId)).call (.RegisterAgentNode b.config.DataCenterId b.config.HostIp)
    | .ok agentId =>
      { (b.call (.Ping b.agentId)).call
          (.RegisterAgentNode b.config.DataCenterId b.config.HostIp) with
        agentId := agentId }

/-- The re-registration loop of `Sync` for a container that has live services;
an error is logged and the loop goes on. -/
def registerAll (env : Env) (b : Bridge) (services : List Service) : Bridge :=
  services.foldl
    (fun b service =>
      match env.registry.Register b.calls service with
      | some _ => b.call (.Register service)
      | none => b.call (.Register service))
    b

/-- First loop of `Sync`, over the listed containers. -/
def syncContainers (env : Env) (rt : Runtime) (quiet : Bool) (b : Bridge)
    (containerList : List String) : Bridge :=
  containerList.foldl
    (fun b id => if b.live id = [] then add env rt b id quiet else registerAll env b (b.live id))
    b

/-- The test of the dangling sweep of `Sync` on one listed registry entry: its ID
matches the pattern, the host in it is this host, and no live service has its
name together with the container name in its ID. -/
def isDangling (Hostname : String) (services : GoMap (List Service)) (extService : Service) :
    Bool :=
  match serviceIDPattern extService.ID with
  | none => false
  | some (serviceHostname, serviceContainerName) =>
    if serviceHostname ≠ Hostname then false
    else
      !(services.any fun listing =>
        listing.2.any fun service =>
          decide (service.Name = extService.Name ∧
            serviceContainerName = service.Origin.container.Name))

/-- The dangling sweep of `Sync` over the listed registry entries. -/
def sweep (env : Env) (b : Bridge) (extServices : List Service) : Bridge :=
  extServices.foldl
    (fun b extService =>
      if isDangling env.Hostname b.services extService then
        match env.registry.Deregister b.calls extService with
        | some _ => b.call (.Deregister extService)
        | none => b.call (.Deregister extService)
      else b)
    b

/-- Outcome of `Sync`: the bridge, the container ids for which it started
`go b.RemoveOnExit(id)` (these run once `Sync` has released the lock), and whether
it ended in `log.Fatal`. -/
structure SyncResult where
  bridge : Bridge
  spawned : List String
  fatal : Bool

/-- Go `(b *Bridge) Sync(quiet)`. -/
def Sync (env : Env) (rt : Runtime) (b : Bridge) (quiet : Bool) : SyncResult :=
  match rt.Containers with
  | .error _ => { bridge := b, spawned := [], fatal := !quiet }
  | .ok containerList =>
    let b1 := syncContainers env rt quiet b containerList
    if b1.config.Cleanup then
      let nonExitedContainers :=
        containerList.filter fun id =>
          match rt.Status id with
          | .ok status => decide (status = "running")
          | .error _ => false
      let stale :=
        (rangeOrder rt.picks b1.services.keys).filter fun listingId =>
          !(nonExitedContainers.any fun id => decide (listingId = id))
      match env.registry.Services b1.calls b1.agentId with
      | .error _ => { bridge := b1.call (.Services b1.agentId), spawned := stale, fatal := false }
      | .ok extServices =>
        { bridge := sweep env (b1.call (.Services b1.agentId)) extServices
          spawned := stale
          fatal := false }
    else { bridge := b1, spawned := [], fatal := false }

/-- An operation on the bridge. -/
inductive Op where
  | Add (containerId : String)
  | Remove (containerId : String)
  | RemoveOnExit (containerId : String)
  | Refresh
  | Sync (quiet : Bool)
  | Ping

/-- One operation, with what the runtime answers during it. -/
def step (env : Env) (b : Bridge) (o : Op × Runtime) : Bridge :=
  match o.1 with
  | .Add id => Add env o.2 b id
  | .Remove id => Remove env b id
  | .RemoveOnExit id => RemoveOnExit env o.2 b id
  | .Refresh => Refresh env o.2 b
  | .Sync quiet => (Sync env o.2 b quiet).bridge
  | .Ping => Ping env b

/-- A finite sequence of operations, one after the other. -/
def run (env : Env) (b : Bridge) (ops : List (Op × Runtime)) : Bridge :=
  ops.foldl (step env) b

/-! ## Startup validation (`main.go`) -/

/-- The check of the TTL options in `main` (`main.go`, lines 78 to 82) on the
values of `-ttl` and `-ttl-refresh`: the error handed to `assert`, which ends the
process with `log.Fatal`; `none` when neither branch fires and `main` goes on. -/
def checkTtl (refreshTtl refreshInterval : Int) : Option String :=
  if (refreshTtl = 0 ∧ refreshInterval > 0) ∨ (refreshTtl > 0 ∧ refreshInterval = 0) then
    some "-ttl and -ttl-refresh must be specified together or not at all"
  else if refreshTtl > 0 ∧ refreshTtl ≤ refreshInterval then
    some "-ttl must be greater than -ttl-refresh"
  else none

/-- The guard of the TTL refresh timer in `main` (`main.go`, line 145): the
ticker that calls `Refresh` is started only for a positive `-ttl-refresh`. -/
def startsRefreshTicker (refreshInterval : Int) : Bool :=
  decide (refreshInterval > 0)

/-! ## Notions used in the statements -/

/-- The invariant of the two maps: no container id is a key of both. -/
def DisjointKeys (b : Bridge) : Prop :=
  ∀ k ∈ b.services.keys, k ∉ b.deadContainers.keys

instance (b : Bridge) : Decidable (DisjointKeys b) := by
  unfold DisjointKeys
  infer_instance

/-- The services of the `Deregister` calls in a list of registry calls, in order. -/
def deregistered (calls : List RegCall) : List Service :=
  calls.filterMap fun c =>
    match c with
    | .Deregister service => some service
    | _ => none

/-- The services of the `Register` calls in a list of registry calls, in order. -/
def registered (calls : List RegCall) : List Service :=
  calls.filterMap fun c =>
    match c with
    | .Register service => some service
    | _ => none

/-- The services held in the grace entry of a container, none when it has no
grace entry. -/
def Bridge.grace (b : Bridge) (containerId : String) : List Service :=
  match b.deadContainers.get? containerId with
  | some d => d.Services
  | none => []

/-- A sequence of `Refresh` calls, one for each runtime snapshot of the list. -/
def refreshes (env : Env) (b : Bridge) (rts : List Runtime) : Bridge :=
  rts.foldl (fun b rt => Refresh env rt b) b

/-- The container has the grace entry `(ttl, services)`, held under one key, in a
bridge with configuration `config`. -/
def GraceAt (config : Config) (id : String) (services : List Service) (ttl : Int) (b : Bridge) :
    Prop :=
  b.config = config ∧ b.deadContainers.keys.count id ≤ 1 ∧
    b.deadContainers.get? id = some { TTL := ttl, Services := services }

instance (config : Config) (id : String) (services : List Service) (ttl : Int) (b : Bridge) :
    Decidable (GraceAt config id services ttl b) := by
  unfold GraceAt
  infer_instance

/-- The ports that `add` extracts for a container id: those of the bundle that
`getK8SScheduleContainer` gives, none when it gives an error or no bundle. -/
def extractedPorts (env : Env) (rt : Runtime) (containerId : String) : GoMap ServicePort :=
  match getK8SScheduleContainer rt containerId with
  | .ok (some c) => extractK8SSchedulePorts env.lower env.unmarshalPorts c
  | _ => []

/-- The services that `newService` builds for a list of ports, in order; a port
for which it gives `nil` contributes none. -/
def builtServices (lower : Char → Char) (Hostname : String) (config : Config) (isGroup : Bool)
    (ports : List (String × ServicePort)) : List Service :=
  ports.filterMap fun kv => newService lower Hostname config kv.2 isGroup

/-- The services of `built` for which `Register` gives no error, when it is
called on each service of `built` in turn, after the calls `calls`. -/
def accepted (registry : RegistryAdapter) : List RegCall → List Service → List Service
  | _, [] => []
  | calls, s :: rest =>
    (if registry.Register calls s = none then [s] else []) ++
      accepted registry (calls ++ [.Register s]) rest

/-- The attribute key that `serviceMetaData` derives from an environment entry:
the lower-cased rest of a key that starts with `SERVICE_`. -/
def attrKey (lower : Char → Char) (kv : EnvMetadata) : Option String :=
  if hasPrefix kv.Key "SERVICE_" then some (toLower lower (trimPrefix kv.Key "SERVICE_")) else none

/-- The attribute that an entry sets port-scoped for `port`: its key is
`SERVICE_<port>_<attribute>`, that is, after the prefix comes a number that is
`port`, then `_`, then the attribute. -/
def scopedAttr (lower : Char → Char) (port : String) (kv : EnvMetadata) : Option String :=
  (attrKey lower kv).bind fun key =>
    match atoi (splitN2 key).1, (splitN2 key).2 with
    | some _, some rest => if (splitN2 key).1 = port then some rest else none
    | _, _ => none

/-- The attribute that an entry sets globally: its key is `SERVICE_<attribute>`
and is not of the port-scoped form (a number, then `_`, then more). -/
def globalAttr (lower : Char → Char) (kv : EnvMetadata) : Option String :=
  (attrKey lower kv).bind fun key =>
    match atoi (splitN2 key).1, (splitN2 key).2 with
    | some _, some _ => none
    | _, _ => some key

/-- The `ServicePort` that the loop of `extractK8SSchedulePorts` builds for one
declared port mapping of the container. -/
def servicePortOf (lower : Char → Char) (c : K8SScheduleContainer) (portMapping : PortMapping) : ServicePort :=
  { HostPort := ""
    HostIP := ""
    ExposedPort := itoa portMapping.ContainerPort
    ExposedIP := c.SandBoxMetadata.Metadata.IP
    PortType := toLower lower portMapping.Protocol
    ContainerHostname := GetEnv c.ContainerSpec "HOSTNAME"
    ContainerID := c.ID
    ContainerName := c.ContainerMetadata.Metadata.Name
    container := c }

/-- The value of the ports annotation `io.kubernetes.container.ports` of the
container, the empty string when it has none. -/
def portsJSON (c : K8SScheduleContainer) : String :=
  (c.ContainerMetadata.Metadata.Config.Annotations.get? "io.kubernetes.container.ports").getD ""

/-- A text that the group `(.+?)` of the service-ID pattern can take whole: not
empty and without a line feed. -/
def isHostText (s : String) : Bool :=
  !s.data.isEmpty && s.data.all fun c => decide (c ≠ '\n')

/-- A text that the group `([a-zA-Z0-9][a-zA-Z0-9_.-]+)` of the service-ID
pattern can take whole: a letter or digit followed by at least one character of
the class. -/
def isNameText (s : String) : Bool :=
  match s.data with
  | c :: d :: rest => isAlnum c && (d :: rest).all isNameChar
  | _ => false

/-! ## Example inputs -/

/-- A part of the case tables of `unicode.ToLower` beyond ASCII: `İ` (U+0130)
goes to `i`, the Kelvin sign (U+212A) to `k`, `É` to `é`; the runes used in the
examples are otherwise their own lower case. -/
def exLower (c : Char) : Char :=
  if c = 'İ' then 'i'
  else if c = Char.ofNat 0x212A then 'k'
  else if c = 'É' then 'é'
  else c

/-- Metadata of the example container `c1` (name `app`, sandbox `sb1`) with the
environment `envs`. -/
def exContainerMeta (envs : List EnvMetadata) : ContainerMetadata :=
  { Version := "v1"
    Metadata :=
      { ID := "c1", Name := "app", SandBoxID := "sb1", IP := "", LogPath := ""
        Config :=
          { Metadata := [], HostName := "", Labels := []
            Annotations := [("io.kubernetes.container.ports", "ports")]
            Envs := envs } } }

/-- Metadata of the example sandbox `sb1`. -/
def exSandboxMeta : ContainerMetadata :=
  { Version := "v1"
    Metadata :=
      { ID := "sb1", Name := "pod", SandBoxID := "", IP := "10.0.0.7", LogPath := ""
        Config := { Metadata := [], HostName := "", Labels := [], Annotations := [], Envs := [] } } }

/-- Spec of the example container. -/
def exSpec : ContainerSpec :=
  { OciVersion := "1.0", Process := { Env := ["HOSTNAME=pod-0"], Args := [] }, Annotations := [] }

/-- A runtime that knows the application container `c1` and its sandbox `sb1`,
both running. -/
def exRuntime (envs : List EnvMetadata) : Runtime :=
  { Get := fun id =>
      if id = "c1" then
        some
          { ID := "c1"
            Labels := [("io.kubernetes.pod.uid", "u1"), ("io.cri-containerd.kind", "container")]
            Extensions :=
              [("io.cri-containerd.container.metadata", some (some (exContainerMeta envs)))]
            Spec := some (some (some exSpec)) }
      else if id = "sb1" then
        some
          { ID := "sb1"
            Labels := [("io.kubernetes.pod.uid", "u1"), ("io.cri-containerd.kind", "sandbox")]
            Extensions := [("io.cri-containerd.sandbox.metadata", some (some exSandboxMeta))]
            Spec := none }
      else none
    Containers := .ok ["sb1", "c1"]
    Status := fun _ => .ok "running"
    picks := [] }

/-- An example configuration: TTL 10, refresh interval 5, cleanup enabled. -/
def exConfig : Config :=
  { HostIp := "", Internal := false, Explicit := false, UseIpFromLabel := "", ForceTags := ""
    RefreshTtl := 10, RefreshInterval := 5, DeregisterCheck := "", Cleanup := true
    DataCenterId := "" }

/-- A registry on which every call succeeds and which lists `listing`. -/
def okRegistry (listing : List Service) : RegistryAdapter :=
  { RegisterAgentNode := fun _ _ _ => .ok "agent"
    Ping := fun _ _ => none
    Register := fun _ _ => none
    Deregister := fun _ _ => none
    Refresh := fun _ _ => none
    Services := fun _ _ => .ok listing }

/-- A registry whose first call of `Register` fails and every later call succeeds. -/
def flakyRegistry : RegistryAdapter :=
  { okRegistry [] with
    Register := fun calls _ => if calls = [] then some "unavailable" else none }

/-- The example environment on host `host1`; the ports annotation of `c1`
declares `ports`. -/
def exEnv (reg : RegistryAdapter) (ports : List PortMapping) : Env :=
  { lower := exLower, Hostname := "host1", registry := reg
    unmarshalPorts := fun s => if s = "ports" then some ports else none }

/-- The port mapping `80/TCP`. -/
def port80 : PortMapping := { Name := "http", HostPort := 0, ContainerPort := 80, Protocol := "TCP" }

/-- A bridge that tracks the services `live` for container `c1` and holds
`grace` with TTL 3 in the grace entry of `c1`. -/
def exBridge (live grace : List Service) : Bridge :=
  { services := [("c0", []), ("c1", live)]
    deadContainers := if grace = [] then [] else [("c1", { TTL := 3, Services := grace })]
    config := exConfig
    agentId := "agent"
    calls := [] }

/-- A service named `name` with the given ID, built for port 80 of the example
container with environment `SERVICE_NAME=name`. -/
def exService (id name : String) : Service :=
  { ID := id, Name := name, Port := 80, IP := "10.0.0.7", Tags := [], Attrs := []
    TTL := 10, AgentId := ""
    Origin :=
      { HostPort := "", HostIP := "", ExposedPort := "80", ExposedIP := "10.0.0.7"
        PortType := "tcp", ContainerHostname := "pod-0", ContainerID := "c1"
        ContainerName := "app"
        container :=
          { ID := "c1", Name := "app"
            ContainerMetadata := exContainerMeta [⟨"SERVICE_NAME", name⟩]
            ContainerSpec := exSpec
            SandBoxMetadata := exSandboxMeta } } }

/-- The port mapping `53/UDP`. -/
def port53 : PortMapping := { Name := "dns", HostPort := 0, ContainerPort := 53, Protocol := "UDP" }

/-- A runtime that lists no container. -/
def emptyRuntime : Runtime :=
  { Get := fun _ => none, Containers := .ok [], Status := fun _ => .error "not found", picks := [] }

/-- The registry entries of the dangling-sweep example: `host1:foo:8080`,
`host2:foo:8080` and `not-a-valid-id`, all named `foo`. -/
def exListing : List Service :=
  [exService "host1:foo:8080" "foo", exService "host2:foo:8080" "foo",
   exService "not-a-valid-id" "foo"]

/-- A service port of the example container `c1` with environment `envs`. -/
def exPort (envs : List EnvMetadata) (port proto : String) : ServicePort :=
  { HostPort := "", HostIP := "", ExposedPort := port, ExposedIP := "10.0.0.7"
    PortType := proto, ContainerHostname := "pod-0", ContainerID := "c1"
    ContainerName := "app"
    container :=
      { ID := "c1", Name := "app"
        ContainerMetadata := exContainerMeta envs
        ContainerSpec := exSpec
        SandBoxMetadata := exSandboxMeta } }

/-- The port mapping `53/TCP`. -/
def port53tcp : PortMapping :=
  { Name := "dns-tcp", HostPort := 0, ContainerPort := 53, Protocol := "TCP" }

/-- The bundle of the example container `c1` with environment `envs`. -/
def exContainer (envs : List EnvMetadata) : K8SScheduleContainer :=
  { ID := "c1", Name := "app"
    ContainerMetadata := exContainerMeta envs
    ContainerSpec := exSpec
    SandBoxMetadata := exSandboxMeta }

/-- A parser of the ports annotation that reads the annotation `ports` of the
example container as `portMappings`. -/
def exUnmarshal (portMappings : List PortMapping) (s : String) : Option (List PortMapping) :=
  if s = "ports" then some portMappings else none

/-- The example container whose environment sets the name `web` globally and the
name `dns` for port 53. -/
def exGroup : K8SScheduleContainer :=
  exContainer [⟨"SERVICE_NAME", "web"⟩, ⟨"SERVICE_53_NAME", "dns"⟩]

/-- The example container whose environment sets the attribute `80_name` for
port 80, then the name `web` globally, then the name `api` for port 80. -/
def exCollision : K8SScheduleContainer :=
  exContainer [⟨"SERVICE_80_80_NAME", "t"⟩, ⟨"SERVICE_NAME", "web"⟩, ⟨"SERVICE_80_NAME", "api"⟩]

/-- The example container with environment `SERVICE_NAME=web`. -/
def exSingle : K8SScheduleContainer := exContainer [⟨"SERVICE_NAME", "web"⟩]

/-- The example container with environment `SERVICE_NAME=web`, under the
one-character container name `a`. -/
def exShortName : K8SScheduleContainer :=
  { exSingle with
    Name := "a"
    ContainerMetadata :=
      { exSingle.ContainerMetadata with
        Metadata := { exSingle.ContainerMetadata.Metadata with Name := "a" } } }

end Registrator

/-! # Theorems -/

namespace Registrator

variable {lower : Char → Char}

/-! ## Go maps -/

namespace GoMap

variable {V : Type}

theorem delete_nil (k : String) : delete ([] : GoMap V) k = [] := rfl

theorem delete_cons_self (k : String) (v : V) (m : GoMap V) :
    delete ((k, v) :: m) k = delete m k := by
  simp [delete]

theorem delete_cons_ne {k k' : String} (v : V) (m : GoMap V) (h : k' ≠ k) :
    delete ((k', v) :: m) k = (k', v) :: delete m k := by
  simp [delete, h]

theorem get?_delete_self (m : GoMap V) (k : String) : (m.delete k).get? k = none := by
  induction m with
  | nil => rfl
  | cons e m ih =>
    obtain ⟨k', v⟩ := e
    by_cases h : k' = k
    · subst h
      rw [delete_cons_self]
      exact ih
    · rw [delete_cons_ne v m h]
      simp [get?, h, ih]

theorem get?_delete_ne (m : GoMap V) {k k' : String} (h : k' ≠ k) :
    (m.delete k).get? k' = m.get? k' := by
  induction m with
  | nil => rfl
  | cons e m ih =>
    obtain ⟨k₀, v⟩ := e
    by_cases h₀ : k₀ = k
    · subst h₀
      rw [delete_cons_self]
      simp [get?, ih, Ne.symm h]
    · rw [delete_cons_ne v m h₀]
      simp [get?, ih]

theorem get?_append (m₁ m₂ : GoMap V) (k : String) :
    (m₁ ++ m₂).get? k = (m₁.get? k).orElse (fun _ => m₂.get? k) := by
  induction m₁ with
  | nil => simp [get?]
  | cons e m ih =>
    obtain ⟨k₀, v⟩ := e
    by_cases h₀ : k₀ = k
    · simp [get?, h₀]
    · simp [get?, h₀, ih]

theorem get?_set_self (m : GoMap V) (k : String) (v : V) : (m.set k v).get? k = some v := by
  simp [set, get?_append, get?_delete_self, get?]

theorem get?_set_ne (m : GoMap V) {k k' : String} (v : V) (h : k' ≠ k) :
    (m.set k v).get? k' = m.get? k' := by
  simp [set, get?_append, get?_delete_ne m h, get?, Ne.symm h]

theorem get?_eq_none_iff (m : GoMap V) (k : String) : m.get? k = none ↔ k ∉ m.keys := by
  induction m with
  | nil => simp [get?, keys]
  | cons e m ih =>
    obtain ⟨k₀, v⟩ := e
    by_cases h₀ : k₀ = k
    · simp [get?, keys, h₀]
    · have h₁ : ¬ k = k₀ := fun h => h₀ h.symm
      simp only [keys] at ih
      simp [get?, keys, h₀, h₁, ih]

theorem mem_keys_delete (m : GoMap V) (k k' : String) :
    k' ∈ (m.delete k).keys ↔ k' ∈ m.keys ∧ k' ≠ k := by
  simp only [keys, delete, List.mem_map, List.mem_filter, decide_eq_true_eq]
  constructor
  · rintro ⟨e, ⟨he, hne⟩, rfl⟩
    exact ⟨⟨e, he, rfl⟩, hne⟩
  · rintro ⟨⟨e, he, rfl⟩, hne⟩
    exact ⟨e, ⟨he, hne⟩, rfl⟩

theorem mem_keys_set (m : GoMap V) (k k' : String) (v : V) :
    k' ∈ (m.set k v).keys ↔ k' = k ∨ k' ∈ m.keys := by
  have h := mem_keys_delete m k k'
  simp only [keys] at h
  simp only [set, keys, List.map_append, List.mem_append, h, List.map_cons, List.map_nil,
    List.mem_singleton]
  by_cases hk : k' = k
  · simp [hk]
  · simp [hk]

end GoMap

theorem rangeOrder_perm {α : Type} (picks : List Nat) (l : List α) :
    (rangeOrder picks l).Perm l := by
  induction picks generalizing l with
  | nil => exact List.Perm.refl _
  | cons p ps ih =>
    unfold rangeOrder
    cases hy : l.get? (p % l.length) with
    | none => exact List.Perm.refl _
    | some y =>
      have hlt : p % l.length < l.length := by
        rw [List.get?_eq_some] at hy
        exact hy.1
      have hget : l[p % l.length] = y := by
        rw [List.get?_eq_some] at hy
        obtain ⟨_, h⟩ := hy
        simpa using h
      have h1 : (y :: l.eraseIdx (p % l.length)).Perm l := by
        rw [← hget]
        rw [List.eraseIdx_eq_take_drop_succ]
        have h2 : l = l.take (p % l.length) ++ l[p % l.length] :: l.drop (p % l.length + 1) := by
          rw [← List.drop_eq_getElem_cons hlt]
          exact (List.take_append_drop _ _).symm
        conv_rhs => rw [h2]
        exact List.perm_middle.symm
      exact (List.Perm.cons y (ih _)).trans h1

theorem mem_rangeOrder {α : Type} (picks : List Nat) (l : List α) (x : α) :
    x ∈ rangeOrder picks l ↔ x ∈ l :=
  (rangeOrder_perm picks l).mem_iff

/-! ## `add` -/

theorem GoMap.delete_eq_self {V : Type} (m : GoMap V) (k : String) (h : m.get? k = none) :
    m.delete k = m := by
  induction m with
  | nil => rfl
  | cons e m ih =>
    obtain ⟨k₀, v⟩ := e
    by_cases h₀ : k₀ = k
    · simp [GoMap.get?, h₀] at h
    · simp only [GoMap.get?, h₀, if_false] at h
      rw [GoMap.delete_cons_ne v m h₀, ih h]

theorem addPort_deadContainers (env : Env) (c : K8SScheduleContainer) (g : Bool) (b : Bridge)
    (port : ServicePort) : (addPort env c g b port).deadContainers = b.deadContainers := by
  unfold addPort
  split
  · rfl
  · split <;> rfl

theorem addPort_config (env : Env) (c : K8SScheduleContainer) (g : Bool) (b : Bridge)
    (port : ServicePort) : (addPort env c g b port).config = b.config := by
  unfold addPort
  split
  · rfl
  · split <;> rfl

theorem addPort_agentId (env : Env) (c : K8SScheduleContainer) (g : Bool) (b : Bridge)
    (port : ServicePort) : (addPort env c g b port).agentId = b.agentId := by
  unfold addPort
  split
  · rfl
  · split <;> rfl

theorem foldl_addPort_frame (env : Env) (c : K8SScheduleContainer) (g : Bool)
    (ports : List (String × ServicePort)) (b : Bridge) :
    (ports.foldl (fun b kv => addPort env c g b kv.2) b).deadContainers = b.deadContainers ∧
    (ports.foldl (fun b kv => addPort env c g b kv.2) b).config = b.config ∧
    (ports.foldl (fun b kv => addPort env c g b kv.2) b).agentId = b.agentId := by
  induction ports generalizing b with
  | nil => exact ⟨rfl, rfl, rfl⟩
  | cons kv ports ih =>
    simp only [List.foldl_cons]
    obtain ⟨h1, h2, h3⟩ := ih (addPort env c g b kv.2)
    exact ⟨h1.trans (addPort_deadContainers ..), h2.trans (addPort_config ..),
      h3.trans (addPort_agentId ..)⟩

theorem addResurrect_deadContainers (b : Bridge) (id : String) :
    (addResurrect b id).deadContainers = b.deadContainers.delete id := by
  unfold addResurrect
  cases h : b.deadContainers.get? id with
  | none => exact (GoMap.delete_eq_self _ _ h).symm
  | some d => rfl

theorem add_eq (env : Env) (rt : Runtime) (b : Bridge) (id : String) (quiet : Bool) :
    add env rt b id quiet =
      if (addResurrect b id).live id ≠ [] then addResurrect b id
      else
        match getK8SScheduleContainer rt id with
        | .error _ => addResurrect b id
        | .ok none => addResurrect b id
        | .ok (some c) =>
          if (extractK8SSchedulePorts env.lower env.unmarshalPorts c).length = 0 ∧ quiet = false then
            addResurrect b id
          else
            (rangeOrder rt.picks (extractK8SSchedulePorts env.lower env.unmarshalPorts c)).foldl
              (fun b kv =>
                addPort env c (decide ((extractK8SSchedulePorts env.lower env.unmarshalPorts c).length > 1))
                  b kv.2)
              (addResurrect b id) := rfl

theorem add_frame (env : Env) (rt : Runtime) (b : Bridge) (id : String) (quiet : Bool) :
    (add env rt b id quiet).deadContainers = b.deadContainers.delete id ∧
    (add env rt b id quiet).config = b.config ∧
    (add env rt b id quiet).agentId = b.agentId := by
  have hr : (addResurrect b id).config = b.config ∧ (addResurrect b id).agentId = b.agentId := by
    unfold addResurrect
    cases b.deadContainers.get? id <;> exact ⟨rfl, rfl⟩
  have h0 : (addResurrect b id).deadContainers = b.deadContainers.delete id ∧
      (addResurrect b id).config = b.config ∧ (addResurrect b id).agentId = b.agentId :=
    ⟨addResurrect_deadContainers b id, hr.1, hr.2⟩
  rw [add_eq]
  split
  · exact h0
  · split
    · exact h0
    · exact h0
    · split
      · exact h0
      · obtain ⟨h1, h2, h3⟩ := foldl_addPort_frame env _
          (decide ((extractK8SSchedulePorts env.lower env.unmarshalPorts _).length > 1))
          (rangeOrder rt.picks (extractK8SSchedulePorts env.lower env.unmarshalPorts _)) (addResurrect b id)
        exact ⟨h1.trans h0.1, h2.trans h0.2.1, h3.trans h0.2.2⟩

/-- C1 (amended): when the first `Add(id)` leaves live services recorded for
`id`, a second `Add(id)` right after it, whatever the runtime answers, is a
no-op: it makes no call on the registry and leaves the live-services map and the
dead-containers map exactly as the first call left them. -/
theorem add_twice_noop (env : Env) (rt₁ rt₂ : Runtime) (b : Bridge) (id : String)
    (h : (Add env rt₁ b id).live id ≠ []) :
    Add env rt₂ (Add env rt₁ b id) id = Add env rt₁ b id := by
  have hd : (Add env rt₁ b id).deadContainers.get? id = none := by
    unfold Add
    rw [(add_frame env rt₁ b id false).1]
    exact GoMap.get?_delete_self _ _
  have hr : addResurrect (Add env rt₁ b id) id = Add env rt₁ b id := by
    unfold addResurrect
    rw [hd]
  show add env rt₂ (Add env rt₁ b id) id false = _
  rw [add_eq, hr, if_pos h]

/-- Witness of `add_twice_noop`: the example container with one port on a
registry that accepts every call. -/
theorem add_twice_noop_witness :
    (Add (exEnv (okRegistry []) [port80]) (exRuntime [⟨"SERVICE_NAME", "web"⟩]) (New exConfig)
        "c1").live "c1" ≠ [] ∧
    Add (exEnv (okRegistry []) [port80]) (exRuntime [⟨"SERVICE_NAME", "web"⟩])
        (Add (exEnv (okRegistry []) [port80]) (exRuntime [⟨"SERVICE_NAME", "web"⟩])
          (New exConfig) "c1") "c1" =
      Add (exEnv (okRegistry []) [port80]) (exRuntime [⟨"SERVICE_NAME", "web"⟩]) (New exConfig)
        "c1" :=
  ⟨by decide, add_twice_noop _ _ _ _ _ (by decide)⟩

/-- C1 as stated fails: on a registry whose first `Register` fails, the first
`Add` records nothing, and the second `Add` of the same container calls
`Register` again and changes the live-services map. -/
theorem add_twice_counterexample :
    (Add (exEnv flakyRegistry [port80]) (exRuntime [⟨"SERVICE_NAME", "web"⟩]) (New exConfig)
        "c1").calls.length = 1 ∧
    (Add (exEnv flakyRegistry [port80]) (exRuntime [⟨"SERVICE_NAME", "web"⟩]) (New exConfig)
        "c1").services = [] ∧
    (Add (exEnv flakyRegistry [port80]) (exRuntime [⟨"SERVICE_NAME", "web"⟩])
        (Add (exEnv flakyRegistry [port80]) (exRuntime [⟨"SERVICE_NAME", "web"⟩])
          (New exConfig) "c1") "c1").calls.length = 2 ∧
    (Add (exEnv flakyRegistry [port80]) (exRuntime [⟨"SERVICE_NAME", "web"⟩])
        (Add (exEnv flakyRegistry [port80]) (exRuntime [⟨"SERVICE_NAME", "web"⟩])
          (New exConfig) "c1") "c1").services.keys = ["c1"] := by
  decide

/-! ## Loops that only call the registry -/

theorem Bridge.call_calls_append (b : Bridge) (cs : List RegCall) (c : RegCall) :
    ({ b with calls := b.calls ++ cs } : Bridge).call c = { b with calls := b.calls ++ (cs ++ [c]) } := by
  simp [Bridge.call, List.append_assoc]

theorem Bridge.with_calls_nil (b : Bridge) : ({ b with calls := b.calls ++ [] } : Bridge) = b := by
  cases b
  simp

theorem deregisterAll_eq (env : Env) (b : Bridge) (services : List Service) :
    deregisterAll env b services = { b with calls := b.calls ++ services.map .Deregister } := by
  induction services generalizing b with
  | nil => simp [deregisterAll]
  | cons s l ih =>
    have hstep : deregisterAll env b (s :: l) = deregisterAll env (b.call (.Deregister s)) l := by
      simp only [deregisterAll, List.foldl_cons]
      split <;> rfl
    rw [hstep, ih]
    simp [Bridge.call, List.append_assoc]

theorem refreshAll_eq (env : Env) (b : Bridge) (services : List Service) :
    refreshAll env b services = { b with calls := b.calls ++ services.map .Refresh } := by
  induction services generalizing b with
  | nil => simp [refreshAll]
  | cons s l ih =>
    have hstep : refreshAll env b (s :: l) = refreshAll env (b.call (.Refresh s)) l := by
      simp only [refreshAll, List.foldl_cons]
      split <;> rfl
    rw [hstep, ih]
    simp [Bridge.call, List.append_assoc]

theorem registerAll_eq (env : Env) (b : Bridge) (services : List Service) :
    registerAll env b services = { b with calls := b.calls ++ services.map .Register } := by
  induction services generalizing b with
  | nil => simp [registerAll]
  | cons s l ih =>
    have hstep : registerAll env b (s :: l) = registerAll env (b.call (.Register s)) l := by
      simp only [registerAll, List.foldl_cons]
      split <;> rfl
    rw [hstep, ih]
    simp [Bridge.call, List.append_assoc]

theorem sweep_eq (env : Env) (b : Bridge) (extServices : List Service) :
    sweep env b extServices =
      { b with
        calls := b.calls ++
          (extServices.filter (isDangling env.Hostname b.services)).map .Deregister } := by
  induction extServices generalizing b with
  | nil => simp [sweep]
  | cons s l ih =>
    by_cases hd : isDangling env.Hostname b.services s = true
    · have hstep : sweep env b (s :: l) = sweep env (b.call (.Deregister s)) l := by
        simp only [sweep, List.foldl_cons, hd, if_true]
        split <;> rfl
      rw [hstep, ih]
      simp [Bridge.call, List.append_assoc, List.filter_cons, hd]
    · have hstep : sweep env b (s :: l) = sweep env b l := by
        simp only [sweep, List.foldl_cons, hd]
        rfl
      rw [hstep, ih]
      simp [List.filter_cons, hd]

/-! ## The two maps never share a key -/

theorem getK8SScheduleContainer_ID (rt : Runtime) (id : String) (c : K8SScheduleContainer)
    (h : getK8SScheduleContainer rt id = .ok (some c)) : c.ID = id := by
  unfold getK8SScheduleContainer at h
  repeat' split at h
  all_goals first
    | (simp only [Except.ok.injEq, Option.some.injEq] at h; rw [← h])
    | simp at h

theorem addPort_services_keys (env : Env) (c : K8SScheduleContainer) (g : Bool) (b : Bridge)
    (port : ServicePort) (k : String) (h : k ∈ (addPort env c g b port).services.keys) :
    k = c.ID ∨ k ∈ b.services.keys := by
  unfold addPort at h
  split at h
  · exact Or.inr h
  · split at h
    · exact Or.inr h
    · exact (GoMap.mem_keys_set _ _ _ _).1 h

theorem foldl_addPort_services_keys (env : Env) (c : K8SScheduleContainer) (g : Bool)
    (ports : List (String × ServicePort)) (b : Bridge) (k : String)
    (h : k ∈ (ports.foldl (fun b kv => addPort env c g b kv.2) b).services.keys) :
    k = c.ID ∨ k ∈ b.services.keys := by
  induction ports generalizing b with
  | nil => exact Or.inr h
  | cons kv ports ih =>
    simp only [List.foldl_cons] at h
    rcases ih _ h with h1 | h1
    · exact Or.inl h1
    · exact addPort_services_keys env c g b kv.2 k h1

theorem addResurrect_services_keys (b : Bridge) (id k : String)
    (h : k ∈ (addResurrect b id).services.keys) : k = id ∨ k ∈ b.services.keys := by
  unfold addResurrect at h
  split at h
  · exact (GoMap.mem_keys_set _ _ _ _).1 h
  · exact Or.inr h

theorem add_services_keys (env : Env) (rt : Runtime) (b : Bridge) (id : String) (quiet : Bool)
    (k : String) (h : k ∈ (add env rt b id quiet).services.keys) :
    k = id ∨ k ∈ b.services.keys := by
  unfold add at h
  split at h
  · exact addResurrect_services_keys b id k h
  · split at h
    · exact addResurrect_services_keys b id k h
    · exact addResurrect_services_keys b id k h
    · rename_i c hc
      split at h
      · exact addResurrect_services_keys b id k h
      · rcases foldl_addPort_services_keys env c _ _ _ k h with h1 | h1
        · exact Or.inl (h1.trans (getK8SScheduleContainer_ID rt id c hc))
        · exact addResurrect_services_keys b id k h1

theorem add_disjoint (env : Env) (rt : Runtime) (b : Bridge) (id : String) (quiet : Bool)
    (h : DisjointKeys b) : DisjointKeys (add env rt b id quiet) := by
  intro k hk
  rw [(add_frame env rt b id quiet).1, GoMap.mem_keys_delete]
  rintro ⟨hd, hne⟩
  rcases add_services_keys env rt b id quiet k hk with h1 | h1
  · exact hne h1
  · exact h k h1 hd

theorem remove_services (env : Env) (b : Bridge) (id : String) (deregister : Bool) :
    (remove env b id deregister).services = b.services.delete id := by
  unfold remove
  cases deregister
  · simp only [Bool.false_eq_true, if_false]
    split <;> rfl
  · simp only [if_true, deregisterAll_eq]
    split <;> rfl

theorem remove_deadContainers_keys (env : Env) (b : Bridge) (id : String) (deregister : Bool)
    (k : String) (h : k ∈ (remove env b id deregister).deadContainers.keys) :
    k = id ∨ k ∈ b.deadContainers.keys := by
  unfold remove at h
  cases deregister
  · simp only [Bool.false_eq_true, if_false] at h
    split at h
    · exact (GoMap.mem_keys_set _ _ _ _).1 h
    · exact Or.inr h
  · simp only [if_true, deregisterAll_eq] at h
    split at h
    · exact Or.inr ((GoMap.mem_keys_delete _ _ _).1 h).1
    · exact Or.inr h

theorem remove_disjoint (env : Env) (b : Bridge) (id : String) (deregister : Bool)
    (h : DisjointKeys b) : DisjointKeys (remove env b id deregister) := by
  intro k hk hd
  rw [remove_services, GoMap.mem_keys_delete] at hk
  rcases remove_deadContainers_keys env b id deregister k hd with h1 | h1
  · exact hk.2 h1
  · exact h k hk.1 h1

theorem foldl_refreshAll_eq (env : Env) (l : List (String × List Service)) (b : Bridge) :
    ∃ ss : List Service,
      l.foldl (fun b kv => refreshAll env b kv.2) b =
        { b with calls := b.calls ++ ss.map .Refresh } := by
  induction l generalizing b with
  | nil => exact ⟨[], (Bridge.with_calls_nil b).symm⟩
  | cons kv l ih =>
    obtain ⟨ss, hss⟩ := ih (refreshAll env b kv.2)
    refine ⟨kv.2 ++ ss, ?_⟩
    rw [List.foldl_cons, hss, refreshAll_eq]
    simp [List.append_assoc]

theorem refreshDead_key (config : Config) (e e' : String × DeadContainer)
    (h : refreshDead config e = some e') : e'.1 = e.1 := by
  unfold refreshDead at h
  split at h
  · simp at h
  · simp only [Option.some.injEq] at h
    rw [← h]

theorem Refresh_disjoint (env : Env) (rt : Runtime) (b : Bridge) (h : DisjointKeys b) :
    DisjointKeys (Refresh env rt b) := by
  unfold Refresh
  obtain ⟨ss, hss⟩ := foldl_refreshAll_eq env
    (rangeOrder rt.picks b.services)
    { b with deadContainers := b.deadContainers.filterMap (refreshDead b.config) }
  simp only at hss ⊢
  rw [hss]
  intro k hk hd
  simp only [GoMap.keys, List.mem_map, List.mem_filterMap] at hd
  obtain ⟨e', ⟨e, he, hee⟩, rfl⟩ := hd
  refine h _ hk ?_
  rw [refreshDead_key _ _ _ hee]
  exact List.mem_map_of_mem _ he

theorem syncContainers_disjoint (env : Env) (rt : Runtime) (quiet : Bool)
    (containerList : List String) (b : Bridge) (h : DisjointKeys b) :
    DisjointKeys (syncContainers env rt quiet b containerList) := by
  induction containerList generalizing b with
  | nil => exact h
  | cons id l ih =>
    simp only [syncContainers, List.foldl_cons]
    apply ih
    split
    · exact add_disjoint env rt b id quiet h
    · rw [registerAll_eq]
      exact h

theorem Sync_disjoint (env : Env) (rt : Runtime) (b : Bridge) (quiet : Bool)
    (h : DisjointKeys b) : DisjointKeys (Sync env rt b quiet).bridge := by
  unfold Sync
  split
  · exact h
  · rename_i containerList _
    have h1 := syncContainers_disjoint env rt quiet containerList b h
    simp only
    split
    · split
      · exact h1
      · rw [sweep_eq]
        exact h1
    · exact h1

theorem Ping_disjoint (env : Env) (b : Bridge) (h : DisjointKeys b) :
    DisjointKeys (Ping env b) := by
  unfold Ping
  split
  · exact h
  · split <;> exact h

theorem step_disjoint (env : Env) (b : Bridge) (o : Op × Runtime) (h : DisjointKeys b) :
    DisjointKeys (step env b o) := by
  unfold step
  split
  · exact add_disjoint env o.2 b _ false h
  · exact remove_disjoint env b _ true h
  · exact remove_disjoint env b _ _ h
  · exact Refresh_disjoint env o.2 b h
  · exact Sync_disjoint env o.2 b _ h
  · exact Ping_disjoint env b h

theorem run_disjoint (env : Env) (ops : List (Op × Runtime)) (b : Bridge) (h : DisjointKeys b) :
    DisjointKeys (run env b ops) := by
  induction ops generalizing b with
  | nil => exact h
  | cons o ops ih => exact ih _ (step_disjoint env b o h)

/-- C2: starting from the empty bridge of `New`, after any finite sequence of
`Add`, `Remove`, `RemoveOnExit`, `Refresh` and `Sync` (and `Ping`) operations,
under any registry and any runtime answers, no container id is a key of both
the live-services map and the dead-containers map. -/
theorem live_dead_disjoint (env : Env) (config : Config) (ops : List (Op × Runtime)) (k : String) :
    ¬ (k ∈ (run env (New config) ops).services.keys ∧
       k ∈ (run env (New config) ops).deadContainers.keys) := by
  rintro ⟨h1, h2⟩
  have h0 : DisjointKeys (New config) := by
    intro k hk
    simp [New, GoMap.keys] at hk
  exact run_disjoint env ops (New config) h0 k h1 h2

/-! ## `remove` -/

theorem remove_true_eq (env : Env) (b : Bridge) (id : String) :
    remove env b id true =
      { b with
        services := b.services.delete id
        deadContainers := b.deadContainers.delete id
        calls := b.calls ++ (b.live id ++ b.grace id).map .Deregister } := by
  unfold remove Bridge.grace
  simp only [if_true, deregisterAll_eq]
  cases h : b.deadContainers.get? id with
  | none => simp [GoMap.delete_eq_self _ _ h]
  | some d => simp [List.append_assoc]

/-- C3: `remove(id, true)`, which is `Remove(id)` and is `RemoveOnExit(id)` when
`shouldRemove` says so, calls `Deregister` once for each service of the live
entry of `id` and then once for each service held in its grace entry, whatever
the registry answers; afterwards `id` is a key of neither map and the entries of
every other container id are as before. -/
theorem remove_deregisters (env : Env) (b : Bridge) (id : String) :
    (remove env b id true).calls = b.calls ++ (b.live id ++ b.grace id).map .Deregister ∧
    id ∉ (remove env b id true).services.keys ∧
    id ∉ (remove env b id true).deadContainers.keys ∧
    (∀ k, k ≠ id →
      (remove env b id true).services.get? k = b.services.get? k ∧
      (remove env b id true).deadContainers.get? k = b.deadContainers.get? k) ∧
    Remove env b id = remove env b id true ∧
    (∀ rt, shouldRemove rt b id = true → RemoveOnExit env rt b id = remove env b id true) := by
  rw [remove_true_eq]
  refine ⟨rfl, ?_, ?_, ?_, ?_, ?_⟩
  · simp [GoMap.mem_keys_delete]
  · simp [GoMap.mem_keys_delete]
  · intro k hk
    exact ⟨GoMap.get?_delete_ne _ hk, GoMap.get?_delete_ne _ hk⟩
  · rw [Remove, remove_true_eq]
  · intro rt hrt
    rw [RemoveOnExit, hrt, remove_true_eq]

/-- Witness of `remove_deregisters`: a container with one live service and one
service in its grace entry; the status-based policy removes it when its task is
reported stopped. -/
theorem remove_deregisters_witness :
    (remove (exEnv flakyRegistry []) (exBridge [exService "a" "web"] [exService "b" "db"]) "c1"
        true).calls =
      [.Deregister (exService "a" "web"), .Deregister (exService "b" "db")] ∧
    RemoveOnExit (exEnv flakyRegistry []) { exRuntime [] with Status := fun _ => .ok "stopped" }
        (exBridge [exService "a" "web"] [exService "b" "db"]) "c1" =
      remove (exEnv flakyRegistry []) (exBridge [exService "a" "web"] [exService "b" "db"]) "c1"
        true :=
  ⟨(remove_deregisters _ _ _).1.trans (by decide),
   (remove_deregisters (exEnv flakyRegistry []) (exBridge [exService "a" "web"]
      [exService "b" "db"]) "c1").2.2.2.2.2 _ (by decide)⟩

theorem remove_false_calls (env : Env) (b : Bridge) (id : String) :
    (remove env b id false).calls = b.calls := by
  unfold remove
  simp only [Bool.false_eq_true, if_false]
  split <;> rfl

/-- C4: `remove(id, false)` makes no call on the registry, and afterwards `id`
is not a key of the live-services map; when `RefreshTtl` is not zero and `id`
had live services, the dead-containers map holds for `id` a grace entry with TTL
`RefreshTtl` and exactly the services that were live; in every other case the
dead-containers map is unchanged. -/
theorem remove_defers (env : Env) (b : Bridge) (id : String) :
    (remove env b id false).calls = b.calls ∧
    id ∉ (remove env b id false).services.keys ∧
    (b.config.RefreshTtl ≠ 0 ∧ b.live id ≠ [] →
      (remove env b id false).deadContainers.get? id =
        some { TTL := b.config.RefreshTtl, Services := b.live id }) ∧
    (¬ (b.config.RefreshTtl ≠ 0 ∧ b.live id ≠ []) →
      (remove env b id false).deadContainers = b.deadContainers) := by
  have hs := remove_services env b id false
  refine ⟨remove_false_calls env b id, ?_, ?_, ?_⟩
  · rw [hs]
    simp [GoMap.mem_keys_delete]
  · intro h
    unfold remove
    simp only [Bool.false_eq_true, if_false, if_pos h]
    exact GoMap.get?_set_self _ _ _
  · intro h
    unfold remove
    simp only [Bool.false_eq_true, if_false, if_neg h]

/-- Witness of `remove_defers`: with TTL 10 the live service of `c1` moves into
a grace entry; a container without live services leaves the map as it is. -/
theorem remove_defers_witness :
    (remove (exEnv (okRegistry []) []) (exBridge [exService "a" "web"] []) "c1"
        false).deadContainers.get? "c1" =
      some { TTL := 10, Services := [exService "a" "web"] } ∧
    (remove (exEnv (okRegistry []) []) (exBridge [exService "a" "web"] []) "c0"
        false).deadContainers = [] :=
  ⟨(remove_defers (exEnv (okRegistry []) []) (exBridge [exService "a" "web"] []) "c1").2.2.1
      (by decide),
   (remove_defers (exEnv (okRegistry []) []) (exBridge [exService "a" "web"] []) "c0").2.2.2
      (by decide)⟩

/-! ## `Refresh` and the grace period -/

theorem Refresh_eq (env : Env) (rt : Runtime) (b : Bridge) :
    ∃ ss : List Service,
      Refresh env rt b =
        { b with
          deadContainers := b.deadContainers.filterMap (refreshDead b.config)
          calls := b.calls ++ ss.map .Refresh } := by
  unfold Refresh
  obtain ⟨ss, hss⟩ := foldl_refreshAll_eq env (rangeOrder rt.picks b.services)
    { b with deadContainers := b.deadContainers.filterMap (refreshDead b.config) }
  exact ⟨ss, hss⟩

theorem deregistered_append_refresh (calls : List RegCall) (ss : List Service) :
    deregistered (calls ++ ss.map .Refresh) = deregistered calls := by
  induction ss generalizing calls with
  | nil => simp
  | cons s ss ih =>
    have h : calls ++ (s :: ss).map RegCall.Refresh =
        (calls ++ [RegCall.Refresh s]) ++ ss.map RegCall.Refresh := by simp
    rw [h, ih]
    simp [deregistered, List.filterMap_append]

theorem mem_keys_filterMap_refreshDead (config : Config) (m : GoMap DeadContainer) (k : String)
    (h : k ∈ GoMap.keys (m.filterMap (refreshDead config))) : k ∈ m.keys := by
  simp only [GoMap.keys, List.mem_map, List.mem_filterMap] at h
  obtain ⟨e', ⟨e, he, hee⟩, rfl⟩ := h
  rw [refreshDead_key _ _ _ hee]
  exact List.mem_map_of_mem _ he

theorem count_keys_filterMap_refreshDead (config : Config) (m : GoMap DeadContainer) (id : String) :
    (GoMap.keys (m.filterMap (refreshDead config))).count id ≤ m.keys.count id := by
  induction m with
  | nil => simp [GoMap.keys]
  | cons e m ih =>
    simp only [GoMap.keys] at ih ⊢
    rw [List.filterMap_cons]
    cases he : refreshDead config e with
    | none =>
      simp only [List.map_cons, List.count_cons]
      omega
    | some e' =>
      have hk := refreshDead_key _ _ _ he
      simp only [List.map_cons, List.count_cons, hk]
      omega

theorem get?_filterMap_refreshDead (config : Config) (m : GoMap DeadContainer) (id : String)
    (h : m.keys.count id ≤ 1) :
    GoMap.get? (m.filterMap (refreshDead config)) id =
      (m.get? id).bind fun d => (refreshDead config (id, d)).map Prod.snd := by
  induction m with
  | nil => rfl
  | cons e m ih =>
    obtain ⟨k, v⟩ := e
    simp only [GoMap.keys, List.map_cons, List.count_cons] at h
    rw [List.filterMap_cons]
    by_cases hk : k = id
    · subst hk
      have h0 : List.count k (m.map Prod.fst) = 0 := by simpa using h
      have hnot : k ∉ GoMap.keys m := by
        simpa [GoMap.keys] using List.count_eq_zero.1 h0
      have hnone : GoMap.get? (m.filterMap (refreshDead config)) k = none :=
        (GoMap.get?_eq_none_iff _ _).2 fun hmem =>
          hnot (mem_keys_filterMap_refreshDead config m k hmem)
      cases he : refreshDead config (k, v) with
      | none => simp [GoMap.get?, hnone, he]
      | some e' =>
        have hk' := refreshDead_key _ _ _ he
        obtain ⟨k', v'⟩ := e'
        simp only at hk'
        subst hk'
        simp [GoMap.get?, he]
    · have hle : List.count id (m.map Prod.fst) ≤ 1 := by
        have : (k == id) = false := by simpa using hk
        simpa [this] using h
      have ih' := ih (by simpa [GoMap.keys] using hle)
      cases he : refreshDead config (k, v) with
      | none => simp [GoMap.get?, hk, ih']
      | some e' =>
        have hk' := refreshDead_key _ _ _ he
        obtain ⟨k', v'⟩ := e'
        simp only at hk'
        subst hk'
        simp [GoMap.get?, hk, ih']

theorem wrapInt_eq (x : Int) (h1 : minInt ≤ x) (h2 : x ≤ maxInt) : wrapInt x = x := by
  unfold wrapInt
  unfold minInt at h1
  unfold maxInt at h2
  rw [Int.emod_eq_of_lt (by omega) (by omega)]
  omega

theorem Refresh_present (env : Env) (rt : Runtime) (config : Config) (id : String)
    (svcs : List Service) (t : Int) (b : Bridge) (h : GraceAt config id svcs t b)
    (hpos : 0 < t - config.RefreshInterval) (hmax : t - config.RefreshInterval ≤ maxInt) :
    GraceAt config id svcs (t - config.RefreshInterval) (Refresh env rt b) := by
  obtain ⟨hc, hcount, hget⟩ := h
  obtain ⟨ss, hss⟩ := Refresh_eq env rt b
  have hmin : minInt ≤ t - config.RefreshInterval := by
    unfold minInt
    omega
  rw [hss]
  refine ⟨hc, ?_, ?_⟩
  · exact le_trans (count_keys_filterMap_refreshDead _ _ _) hcount
  · show GoMap.get? (b.deadContainers.filterMap (refreshDead b.config)) id = _
    rw [get?_filterMap_refreshDead _ _ _ hcount, hget, hc]
    simp only [Option.some_bind, refreshDead, wrapInt_eq _ hmin hmax]
    rw [if_neg (by omega)]
    rfl

theorem Refresh_absent (env : Env) (rt : Runtime) (config : Config) (id : String)
    (svcs : List Service) (t : Int) (b : Bridge) (h : GraceAt config id svcs t b)
    (hle : t - config.RefreshInterval ≤ 0) (hmin : minInt ≤ t - config.RefreshInterval) :
    (Refresh env rt b).deadContainers.get? id = none := by
  obtain ⟨hc, hcount, hget⟩ := h
  obtain ⟨ss, hss⟩ := Refresh_eq env rt b
  have hmax : t - config.RefreshInterval ≤ maxInt := by
    unfold maxInt
    omega
  rw [hss]
  show GoMap.get? (b.deadContainers.filterMap (refreshDead b.config)) id = _
  rw [get?_filterMap_refreshDead _ _ _ hcount, hget, hc]
  simp only [Option.some_bind, refreshDead, wrapInt_eq _ hmin hmax]
  rw [if_pos hle]
  rfl

theorem refreshes_cons (env : Env) (b : Bridge) (rt : Runtime) (rts : List Runtime) :
    refreshes env b (rt :: rts) = refreshes env (Refresh env rt b) rts := rfl

theorem refreshes_append (env : Env) (b : Bridge) (rts : List Runtime) (rt : Runtime) :
    refreshes env b (rts ++ [rt]) = Refresh env rt (refreshes env b rts) := by
  simp [refreshes, List.foldl_append]

theorem refreshes_present (env : Env) (config : Config) (id : String) (svcs : List Service)
    (hI : 0 < config.RefreshInterval) (rts : List Runtime) :
    ∀ (t : Int) (b : Bridge), GraceAt config id svcs t b → t ≤ maxInt →
      (rts = [] ∨ 0 < t - rts.length * config.RefreshInterval) →
      GraceAt config id svcs (t - rts.length * config.RefreshInterval) (refreshes env b rts) := by
  induction rts with
  | nil =>
    intro t b h _ _
    simpa [refreshes] using h
  | cons rt rts ih =>
    intro t b h hmax hn
    have hpos : 0 < t - ((rts.length : Int) + 1) * config.RefreshInterval := by
      rcases hn with hn | hn
      · simp at hn
      · simpa using hn
    have hmul : 0 ≤ (rts.length : Int) * config.RefreshInterval :=
      mul_nonneg (Int.ofNat_nonneg _) (le_of_lt hI)
    have hexp : ((rts.length : Int) + 1) * config.RefreshInterval =
        (rts.length : Int) * config.RefreshInterval + config.RefreshInterval := by ring
    have h1 : 0 < t - config.RefreshInterval := by linarith
    have h2 : t - config.RefreshInterval ≤ maxInt := by linarith
    have hstep := Refresh_present env rt config id svcs t b h h1 h2
    have hrest := ih (t - config.RefreshInterval) (Refresh env rt b) hstep h2
      (Or.inr (by linarith))
    rw [refreshes_cons]
    have heq : t - ((rt :: rts).length : Int) * config.RefreshInterval =
        t - config.RefreshInterval - (rts.length : Int) * config.RefreshInterval := by
      simp only [List.length_cons, Nat.cast_add, Nat.cast_one]
      ring
    rw [heq]
    exact hrest

theorem refreshes_deregistered (env : Env) (rts : List Runtime) (b : Bridge) :
    deregistered (refreshes env b rts).calls = deregistered b.calls := by
  induction rts generalizing b with
  | nil => rfl
  | cons rt rts ih =>
    rw [refreshes_cons, ih]
    obtain ⟨ss, hss⟩ := Refresh_eq env rt b
    rw [hss]
    exact deregistered_append_refresh _ _

theorem remove_false_graceAt (env : Env) (b : Bridge) (id : String)
    (hT : b.config.RefreshTtl ≠ 0) (hlive : b.live id ≠ []) :
    GraceAt b.config id (b.live id) b.config.RefreshTtl (remove env b id false) := by
  unfold remove
  simp only [Bool.false_eq_true, if_false, if_pos (And.intro hT hlive)]
  refine ⟨rfl, ?_, GoMap.get?_set_self _ _ _⟩
  show (GoMap.keys (GoMap.set b.deadContainers id _)).count id ≤ 1
  have hz : (GoMap.keys (GoMap.delete b.deadContainers id)).count id = 0 := by
    rw [List.count_eq_zero]
    intro hmem
    exact ((GoMap.mem_keys_delete _ _ _).1 hmem).2 rfl
  simp only [GoMap.keys] at hz
  simp [GoMap.set, GoMap.keys, List.count_append, hz]

/-- C5 (amended): let `remove(id, false)` create a grace entry with TTL
`T = RefreshTtl`, and let the refresh interval `I` be positive (`T`, `I` and
`T - I` being values of a Go `int`).  After `n` calls of `Refresh` the grace
entry is still present, with remaining TTL `T - n*I` and the same services, as
long as `T - n*I > 0`; it is removed by the first `Refresh` that takes the
remaining TTL to zero or below; and `Deregister` is called by none of these
calls.  With `T = 10` and `I = 5` one `Refresh` leaves the entry with TTL 5 and
the second removes it. -/
theorem grace_period (env : Env) (b : Bridge) (id : String) (rts : List Runtime) (rt : Runtime)
    (hT : b.config.RefreshTtl ≠ 0) (hlive : b.live id ≠ [])
    (hTmax : b.config.RefreshTtl ≤ maxInt)
    (hI : 0 < b.config.RefreshInterval) (hImax : b.config.RefreshInterval ≤ maxInt)
    (hmin : minInt ≤ b.config.RefreshTtl - b.config.RefreshInterval)
    (hn : rts.length = 0 ∨ 0 < b.config.RefreshTtl - rts.length * b.config.RefreshInterval) :
    (refreshes env (remove env b id false) rts).deadContainers.get? id =
      some { TTL := b.config.RefreshTtl - rts.length * b.config.RefreshInterval
             Services := b.live id } ∧
    (b.config.RefreshTtl - (rts.length + 1) * b.config.RefreshInterval ≤ 0 →
      (refreshes env (remove env b id false) (rts ++ [rt])).deadContainers.get? id = none) ∧
    deregistered (refreshes env (remove env b id false) (rts ++ [rt])).calls =
      deregistered b.calls := by
  have h0 := remove_false_graceAt env b id hT hlive
  have hn' := refreshes_present env b.config id (b.live id) hI rts _ _ h0 hTmax
    (hn.imp List.length_eq_zero.1 fun h => h)
  refine ⟨hn'.2.2, ?_, ?_⟩
  · intro hle
    rw [refreshes_append]
    apply Refresh_absent env rt b.config id (b.live id) _ _ hn'
    · linarith
    · rcases hn with hn | hn
      · have hnil := List.length_eq_zero.1 hn
        subst hnil
        simpa using hmin
      · unfold minInt
        unfold maxInt at hImax
        linarith
  · rw [refreshes_deregistered, remove_false_calls]

/-- Witness of `grace_period` with `T = 10` and `I = 5`: after one `Refresh` the
grace entry of `c1` has TTL 5, and the second `Refresh` removes it. -/
theorem grace_period_witness :
    (refreshes (exEnv (okRegistry []) []) (remove (exEnv (okRegistry []) [])
        (exBridge [exService "a" "web"] []) "c1" false) [exRuntime []]).deadContainers.get? "c1" =
      some { TTL := 5, Services := [exService "a" "web"] } ∧
    (refreshes (exEnv (okRegistry []) []) (remove (exEnv (okRegistry []) [])
        (exBridge [exService "a" "web"] []) "c1" false)
        ([exRuntime []] ++ [exRuntime []])).deadContainers.get? "c1" = none :=
  have h := grace_period (exEnv (okRegistry []) []) (exBridge [exService "a" "web"] []) "c1"
    [exRuntime []] (exRuntime []) (by decide) (by decide) (by decide) (by decide) (by decide)
    (by decide) (by decide)
  ⟨h.1, h.2.1 (by decide)⟩

/-- C5 as stated fails: with `T = 10` and `I = 5` the second `Refresh` already
removes the grace entry, so two calls do not leave it present with TTL 0. -/
theorem grace_period_counterexample :
    (refreshes (exEnv (okRegistry []) []) (remove (exEnv (okRegistry []) [])
        (exBridge [exService "a" "web"] []) "c1" false) [exRuntime []]).deadContainers.get? "c1" =
      some { TTL := 5, Services := [exService "a" "web"] } ∧
    (refreshes (exEnv (okRegistry []) []) (remove (exEnv (okRegistry []) [])
        (exBridge [exService "a" "web"] []) "c1" false)
        [exRuntime [], exRuntime []]).deadContainers.get? "c1" = none ∧
    (refreshes (exEnv (okRegistry []) []) (remove (exEnv (okRegistry []) [])
        (exBridge [exService "a" "web"] []) "c1" false)
        [exRuntime [], exRuntime []]).deadContainers.get? "c1" ≠
      some { TTL := 0, Services := [exService "a" "web"] } := by
  decide

/-! ## `add` records what the registry accepted -/

theorem rangeOrder_nil {α : Type} (picks : List Nat) : rangeOrder picks ([] : List α) = [] := by
  cases picks <;> rfl

theorem mem_accepted (registry : RegistryAdapter) (built : List Service) :
    ∀ (calls : List RegCall) (s : Service),
      s ∈ accepted registry calls built ↔
        ∃ i, built.get? i = some s ∧
          registry.Register (calls ++ (built.take i).map .Register) s = none := by
  induction built with
  | nil =>
    intro calls s
    simp [accepted]
  | cons x rest ih =>
    intro calls s
    simp only [accepted, List.mem_append, ih]
    constructor
    · rintro (h | ⟨i, hi, hr⟩)
      · by_cases hx : registry.Register calls x = none
        · simp only [hx, if_true, List.mem_singleton] at h
          subst h
          exact ⟨0, rfl, by simpa using hx⟩
        · simp [hx] at h
      · exact ⟨i + 1, by simpa using hi, by simpa [List.append_assoc] using hr⟩
    · rintro ⟨i, hi, hr⟩
      cases i with
      | zero =>
        simp only [List.get?_cons_zero, Option.some.injEq] at hi
        subst hi
        left
        have hx : registry.Register calls x = none := by simpa using hr
        simp [hx]
      | succ i =>
        right
        exact ⟨i, by simpa using hi, by simpa [List.append_assoc] using hr⟩

theorem accepted_sublist (registry : RegistryAdapter) (built : List Service) :
    ∀ calls : List RegCall, (accepted registry calls built).Sublist built := by
  induction built with
  | nil =>
    intro calls
    simp [accepted]
  | cons x rest ih =>
    intro calls
    simp only [accepted]
    split
    · exact (ih _).cons₂ x
    · exact (ih _).cons x

theorem Bridge.live_set (b : Bridge) (k : String) (v : List Service) (cs : List RegCall) :
    ({ b with services := b.services.set k v, calls := cs } : Bridge).live k = v := by
  simp [Bridge.live, GoMap.get?_set_self]

theorem foldl_addPort_spec (env : Env) (c : K8SScheduleContainer) (g : Bool)
    (ports : List (String × ServicePort)) :
    ∀ b : Bridge,
      (ports.foldl (fun b kv => addPort env c g b kv.2) b).calls =
        b.calls ++ (builtServices env.lower env.Hostname b.config g ports).map .Register ∧
      (ports.foldl (fun b kv => addPort env c g b kv.2) b).live c.ID =
        b.live c.ID ++
          accepted env.registry b.calls (builtServices env.lower env.Hostname b.config g ports) := by
  induction ports with
  | nil =>
    intro b
    simp [builtServices, accepted]
  | cons kv ports ih =>
    intro b
    simp only [List.foldl_cons]
    obtain ⟨h1, h2⟩ := ih (addPort env c g b kv.2)
    rw [h1, h2, addPort_config]
    cases hs : newService env.lower env.Hostname b.config kv.2 g with
    | none =>
      have hb : addPort env c g b kv.2 = b := by
        unfold addPort
        rw [hs]
      simp [hb, builtServices, hs]
    | some s =>
      have hbs : builtServices env.lower env.Hostname b.config g (kv :: ports) =
          s :: builtServices env.lower env.Hostname b.config g ports := by
        simp [builtServices, hs]
      rw [hbs]
      cases hr : env.registry.Register b.calls s with
      | some e =>
        have hb : addPort env c g b kv.2 = b.call (.Register s) := by
          unfold addPort
          rw [hs]
          simp only [hr]
        rw [hb]
        simp [accepted, hr, Bridge.call, Bridge.live]
      | none =>
        have hb : addPort env c g b kv.2 =
            { b.call (.Register s) with services := b.services.set c.ID (b.live c.ID ++ [s]) } := by
          unfold addPort
          rw [hs]
          simp only [hr]
        rw [hb]
        constructor
        · simp [Bridge.call]
        · rw [show ({ b.call (.Register s) with
              services := b.services.set c.ID (b.live c.ID ++ [s]) } : Bridge).live c.ID =
              b.live c.ID ++ [s] from by simp [Bridge.live, GoMap.get?_set_self]]
          simp [accepted, hr, Bridge.call]

/-- C6: let `id` be a key of neither map.  `add(id)` calls `Register` once for
every service that `newService` builds from the extracted ports of the
container, in the order of the loop and whatever the earlier calls returned;
the order of the loop is a rearrangement of the extracted ports; and afterwards
the live entry of `id` holds exactly the built services whose `Register` gave no
error, each once and in that order: a service whose `Register` failed is not
recorded. -/
theorem add_records_accepted (env : Env) (rt : Runtime) (b : Bridge) (id : String) (quiet : Bool)
    (hlive : id ∉ b.services.keys) (hdead : id ∉ b.deadContainers.keys) :
    (rangeOrder rt.picks (extractedPorts env rt id)).Perm (extractedPorts env rt id) ∧
    (add env rt b id quiet).calls =
      b.calls ++
        (builtServices env.lower env.Hostname b.config (decide ((extractedPorts env rt id).length > 1))
          (rangeOrder rt.picks (extractedPorts env rt id))).map .Register ∧
    (add env rt b id quiet).live id =
      accepted env.registry b.calls
        (builtServices env.lower env.Hostname b.config (decide ((extractedPorts env rt id).length > 1))
          (rangeOrder rt.picks (extractedPorts env rt id))) ∧
    (∀ s, s ∈ (add env rt b id quiet).live id ↔
      ∃ i,
        (builtServices env.lower env.Hostname b.config (decide ((extractedPorts env rt id).length > 1))
          (rangeOrder rt.picks (extractedPorts env rt id))).get? i = some s ∧
        env.registry.Register
          (b.calls ++
            ((builtServices env.lower env.Hostname b.config (decide ((extractedPorts env rt id).length > 1))
              (rangeOrder rt.picks (extractedPorts env rt id))).take i).map .Register) s = none) ∧
    ((add env rt b id quiet).live id).Sublist
      (builtServices env.lower env.Hostname b.config (decide ((extractedPorts env rt id).length > 1))
        (rangeOrder rt.picks (extractedPorts env rt id))) := by
  have hd : b.deadContainers.get? id = none := (GoMap.get?_eq_none_iff _ _).2 hdead
  have hl : b.live id = [] := by
    simp [Bridge.live, (GoMap.get?_eq_none_iff _ _).2 hlive]
  have hr : addResurrect b id = b := by
    unfold addResurrect
    rw [hd]
  have key : (add env rt b id quiet).calls =
      b.calls ++
        (builtServices env.lower env.Hostname b.config (decide ((extractedPorts env rt id).length > 1))
          (rangeOrder rt.picks (extractedPorts env rt id))).map .Register ∧
    (add env rt b id quiet).live id =
      accepted env.registry b.calls
        (builtServices env.lower env.Hostname b.config (decide ((extractedPorts env rt id).length > 1))
          (rangeOrder rt.picks (extractedPorts env rt id))) := by
    rw [add_eq, hr, if_neg (by simp [hl])]
    unfold extractedPorts
    cases hc : getK8SScheduleContainer rt id with
    | error e => simp [rangeOrder_nil, builtServices, accepted, hl]
    | ok oc =>
      cases oc with
      | none => simp [rangeOrder_nil, builtServices, accepted, hl]
      | some c =>
        have hid : c.ID = id := getK8SScheduleContainer_ID rt id c hc
        simp only
        split
        · rename_i h0
          have hnil : extractK8SSchedulePorts env.lower env.unmarshalPorts c = [] :=
            List.length_eq_zero.1 h0.1
          simp [hnil, rangeOrder_nil, builtServices, accepted, hl]
        · obtain ⟨h1, h2⟩ := foldl_addPort_spec env c
            (decide ((extractK8SSchedulePorts env.lower env.unmarshalPorts c).length > 1))
            (rangeOrder rt.picks (extractK8SSchedulePorts env.lower env.unmarshalPorts c)) b
          rw [hid, hl, List.nil_append] at h2
          exact ⟨h1, h2⟩
  refine ⟨rangeOrder_perm _ _, key.1, key.2, ?_, ?_⟩
  · intro s
    rw [key.2]
    exact mem_accepted _ _ _ _
  · rw [key.2]
    exact accepted_sublist _ _ _

/-- Witness of `add_records_accepted`: the example container declares `80/TCP`
and `53/UDP` and the first `Register` fails; `Register` is called for both
services and only the second one is recorded. -/
theorem add_records_accepted_witness :
    ((add (exEnv flakyRegistry [port80, port53]) (exRuntime [⟨"SERVICE_NAME", "web"⟩])
        (New exConfig) "c1" false).live "c1").map Service.ID = ["host1:app:53:udp"] ∧
    (registered (add (exEnv flakyRegistry [port80, port53]) (exRuntime [⟨"SERVICE_NAME", "web"⟩])
        (New exConfig) "c1" false).calls).map Service.ID =
      ["host1:app:80", "host1:app:53:udp"] :=
  have h := add_records_accepted (exEnv flakyRegistry [port80, port53])
    (exRuntime [⟨"SERVICE_NAME", "web"⟩]) (New exConfig) "c1" false (by decide) (by decide)
  ⟨by rw [h.2.2.1]; decide, by rw [h.2.1]; decide⟩

/-! ## The dangling sweep of `Sync` -/

theorem deregistered_append_register (calls : List RegCall) (ss : List Service) :
    deregistered (calls ++ ss.map .Register) = deregistered calls := by
  induction ss generalizing calls with
  | nil => simp
  | cons s ss ih =>
    have h : calls ++ (s :: ss).map RegCall.Register =
        (calls ++ [RegCall.Register s]) ++ ss.map RegCall.Register := by simp
    rw [h, ih]
    simp [deregistered, List.filterMap_append]

theorem deregistered_append_deregister (calls : List RegCall) (ss : List Service) :
    deregistered (calls ++ ss.map .Deregister) = deregistered calls ++ ss := by
  induction ss generalizing calls with
  | nil => simp
  | cons s ss ih =>
    have h : calls ++ (s :: ss).map RegCall.Deregister =
        (calls ++ [RegCall.Deregister s]) ++ ss.map RegCall.Deregister := by simp
    rw [h, ih]
    simp [deregistered, List.filterMap_append]

theorem addResurrect_calls (b : Bridge) (id : String) : (addResurrect b id).calls = b.calls := by
  unfold addResurrect
  split <;> rfl

theorem add_calls (env : Env) (rt : Runtime) (b : Bridge) (id : String) (quiet : Bool) :
    ∃ ss : List Service, (add env rt b id quiet).calls = b.calls ++ ss.map .Register := by
  have h0 : ∃ ss : List Service, (addResurrect b id).calls = b.calls ++ ss.map .Register :=
    ⟨[], by simp [addResurrect_calls]⟩
  rw [add_eq]
  split
  · exact h0
  · split
    · exact h0
    · exact h0
    · split
      · exact h0
      · rename_i c _ _
        have h := (foldl_addPort_spec env c
          (decide ((extractK8SSchedulePorts env.lower env.unmarshalPorts c).length > 1))
          (rangeOrder rt.picks (extractK8SSchedulePorts env.lower env.unmarshalPorts c))
          (addResurrect b id)).1
        rw [addResurrect_calls] at h
        exact ⟨_, h⟩

theorem syncContainers_frame (env : Env) (rt : Runtime) (quiet : Bool)
    (containerList : List String) (b : Bridge) :
    (syncContainers env rt quiet b containerList).config = b.config ∧
    (syncContainers env rt quiet b containerList).agentId = b.agentId ∧
    deregistered (syncContainers env rt quiet b containerList).calls = deregistered b.calls := by
  induction containerList generalizing b with
  | nil => exact ⟨rfl, rfl, rfl⟩
  | cons id l ih =>
    simp only [syncContainers, List.foldl_cons]
    split
    · obtain ⟨h1, h2, h3⟩ := ih (add env rt b id quiet)
      obtain ⟨ss, hss⟩ := add_calls env rt b id quiet
      obtain ⟨_, g2, g3⟩ := add_frame env rt b id quiet
      exact ⟨h1.trans g2, h2.trans g3,
        h3.trans (by rw [hss, deregistered_append_register])⟩
    · rw [registerAll_eq]
      obtain ⟨h1, h2, h3⟩ := ih { b with calls := b.calls ++ (b.live id).map .Register }
      exact ⟨h1, h2, h3.trans (deregistered_append_register _ _)⟩

theorem isDangling_iff (Hostname : String) (services : GoMap (List Service)) (e : Service) :
    isDangling Hostname services e = true ↔
      ∃ host name, serviceIDPattern e.ID = some (host, name) ∧ host = Hostname ∧
        ¬ ∃ listing ∈ services, ∃ s ∈ listing.2,
          s.Name = e.Name ∧ s.Origin.container.Name = name := by
  unfold isDangling
  cases hp : serviceIDPattern e.ID with
  | none => simp
  | some m =>
    obtain ⟨host, name⟩ := m
    simp only [Option.some.injEq, Prod.mk.injEq]
    by_cases hh : host = Hostname
    · subst hh
      simp only [ne_eq, not_true_eq_false, if_false, Bool.not_eq_true', List.any_eq_false,
        List.any_eq_true, decide_eq_true_eq, not_exists, not_and]
      constructor
      · intro h
        exact ⟨host, name, ⟨rfl, rfl⟩, rfl, fun x hx s hs hn hc => h x hx s hs hn hc.symm⟩
      · rintro ⟨_, _, ⟨rfl, rfl⟩, _, h⟩
        exact fun x hx s hs hn hc => h x hx s hs hn hc.symm
    · simp only [ne_eq, hh, not_false_eq_true, if_true, Bool.false_eq_true, false_iff]
      rintro ⟨host', name', ⟨rfl, rfl⟩, h, _⟩
      exact hh h

/-- C7: in a `Sync` with cleanup enabled whose listing of the runtime and of the
registry succeed, the `Deregister` calls made are exactly one for each entry of
the registry listing, in order, whose ID matches the service-ID pattern with the
local `Hostname` as host and for which no live service tracked at that moment
has both the name of the entry and, as the name of its origin container, the
container name of the ID; no other entry of the listing is passed to
`Deregister`. -/
theorem sync_sweep (env : Env) (rt : Runtime) (b : Bridge) (quiet : Bool)
    (containerList : List String) (extServices : List Service)
    (hlist : rt.Containers = .ok containerList) (hcleanup : b.config.Cleanup = true)
    (hext : env.registry.Services (syncContainers env rt quiet b containerList).calls
      (syncContainers env rt quiet b containerList).agentId = .ok extServices) :
    deregistered (Sync env rt b quiet).bridge.calls =
      deregistered b.calls ++
        extServices.filter
          (isDangling env.Hostname (syncContainers env rt quiet b containerList).services) ∧
    (∀ e, isDangling env.Hostname (syncContainers env rt quiet b containerList).services e = true ↔
      ∃ host name, serviceIDPattern e.ID = some (host, name) ∧ host = env.Hostname ∧
        ¬ ∃ listing ∈ (syncContainers env rt quiet b containerList).services, ∃ s ∈ listing.2,
          s.Name = e.Name ∧ s.Origin.container.Name = name) ∧
    (extServices.Nodup → ∀ e ∈ extServices,
      ((deregistered (Sync env rt b quiet).bridge.calls).drop (deregistered b.calls).length).count e =
        if isDangling env.Hostname (syncContainers env rt quiet b containerList).services e
        then 1 else 0) := by
  obtain ⟨hc, _, hd⟩ := syncContainers_frame env rt quiet containerList b
  have hmain : deregistered (Sync env rt b quiet).bridge.calls =
      deregistered b.calls ++
        extServices.filter
          (isDangling env.Hostname (syncContainers env rt quiet b containerList).services) := by
    unfold Sync
    simp only [hlist, hc, hcleanup, if_true, hext]
    rw [sweep_eq]
    simp only [Bridge.call]
    rw [deregistered_append_deregister]
    have hs : ∀ a, deregistered ((syncContainers env rt quiet b containerList).calls ++
        [RegCall.Services a]) = deregistered (syncContainers env rt quiet b containerList).calls := by
      intro a
      simp [deregistered, List.filterMap_append]
    rw [hs, hd]
  refine ⟨hmain, fun e => isDangling_iff _ _ e, ?_⟩
  intro hnd e he
  rw [hmain, List.drop_left]
  split
  · rename_i h
    rw [List.count_filter h]
    exact List.count_eq_one_of_mem hnd he
  · rename_i h
    rw [List.count_eq_zero]
    intro hmem
    exact h (List.mem_filter.1 hmem).2

/-- Witness of `sync_sweep`: on host `host1` with nothing tracked, the entry
`host1:foo:8080` is deregistered once, and `host2:foo:8080` and
`not-a-valid-id` are not passed to `Deregister`. -/
theorem sync_sweep_witness :
    deregistered (Sync (exEnv (okRegistry exListing) []) emptyRuntime (New exConfig) false).bridge.calls =
      [exService "host1:foo:8080" "foo"] :=
  (sync_sweep (exEnv (okRegistry exListing) []) emptyRuntime (New exConfig) false [] exListing
    rfl rfl rfl).1.trans (by decide)

/-! ## `newService`: the reserved attributes -/

theorem mapDefault_of_none (m : GoMap String) (key : String) (h : m.get? key = none) :
    mapDefault m key "" = "" := by
  unfold mapDefault
  rw [h]

/-- Whatever the environment of the container, the service that `newService`
returns has the default ID and only the forced tags (and `udp`): the attributes
`id` and `tags` are deleted from the metadata before they are read. -/
theorem newService_ID_Tags (Hostname : String) (config : Config) (sp : ServicePort)
    (isGroup : Bool) (svc : Service) (h : newService lower Hostname config sp isGroup = some svc) :
    svc.ID =
      (if sp.PortType = "udp" then
        Hostname ++ ":" ++ sp.container.Name ++ ":" ++ sp.ExposedPort ++ ":udp"
      else Hostname ++ ":" ++ sp.container.Name ++ ":" ++ sp.ExposedPort) ∧
    svc.Tags =
      (if sp.PortType = "udp" then combineTags ["", config.ForceTags, "udp"]
      else combineTags ["", config.ForceTags]) := by
  have hid : mapDefault
      ((((serviceMetaData lower sp.container sp.ExposedPort).1.delete "id").delete "tags").delete
        "name") "id" "" = "" := by
    apply mapDefault_of_none
    rw [GoMap.get?_delete_ne _ (by decide), GoMap.get?_delete_ne _ (by decide)]
    exact GoMap.get?_delete_self _ _
  have htags : mapDefault
      ((((serviceMetaData lower sp.container sp.ExposedPort).1.delete "id").delete "tags").delete
        "name") "tags" "" = "" := by
    apply mapDefault_of_none
    rw [GoMap.get?_delete_ne _ (by decide)]
    exact GoMap.get?_delete_self _ _
  unfold newService at h
  simp only at h
  split at h
  · cases h
  · split at h
    · cases h
    · split at h
      · cases h
      · simp only [Option.some.injEq] at h
        subst h
        simp only [hid, htags, ne_eq, not_true_eq_false, if_false, and_self]

/-- C8, the code at the failing input: the container sets `SERVICE_ID=custom`,
`serviceMetaData` yields the attribute `id = custom`, and the service that
`newService` returns for port 80 still has the default ID `host1:app:80`. -/
theorem newService_id_attribute_lost :
    (serviceMetaData exLower (exPort [⟨"SERVICE_NAME", "web"⟩, ⟨"SERVICE_ID", "custom"⟩] "80"
        "tcp").container "80").1.get? "id" = some "custom" ∧
    (newService exLower "host1" exConfig
        (exPort [⟨"SERVICE_NAME", "web"⟩, ⟨"SERVICE_ID", "custom"⟩] "80" "tcp") false).map
      Service.ID = some "host1:app:80" ∧
    (newService exLower "host1" exConfig
        (exPort [⟨"SERVICE_NAME", "web"⟩, ⟨"SERVICE_80_ID", "custom"⟩] "80" "udp") false).map
      Service.ID = some "host1:app:80:udp" := by
  decide

/-- C9, the code at the failing input: the container sets `SERVICE_TAGS=a,b`
and the forced tags are `f1,f2`; `serviceMetaData` yields the attribute
`tags = a,b`, and the service that `newService` returns carries only the forced
tags (and `udp` for a UDP port). -/
theorem newService_tags_attribute_lost :
    (serviceMetaData exLower (exPort [⟨"SERVICE_NAME", "web"⟩, ⟨"SERVICE_TAGS", "a,b"⟩] "80"
        "tcp").container "80").1.get? "tags" = some "a,b" ∧
    (newService exLower "host1" { exConfig with ForceTags := "f1,f2" }
        (exPort [⟨"SERVICE_NAME", "web"⟩, ⟨"SERVICE_TAGS", "a,b"⟩] "80" "tcp") false).map
      Service.Tags = some ["f1", "f2"] ∧
    (newService exLower "host1" { exConfig with ForceTags := "f1,f2" }
        (exPort [⟨"SERVICE_NAME", "web"⟩, ⟨"SERVICE_80_TAGS", "a,b"⟩] "80" "udp") false).map
      Service.Tags = some ["f1", "f2", "udp"] := by
  decide

/-! ## `serviceMetaData`: port-scoped attributes -/

theorem attrKey_eq_some (kv : EnvMetadata) (key : String) (h : attrKey lower kv = some key) :
    hasPrefix kv.Key "SERVICE_" = true ∧ toLower lower (trimPrefix kv.Key "SERVICE_") = key := by
  unfold attrKey at h
  by_cases hp : hasPrefix kv.Key "SERVICE_" = true
  · rw [if_pos hp] at h
    exact ⟨hp, Option.some.inj h⟩
  · rw [if_neg hp] at h
    cases h

theorem metaStep_of_attrKey (port : String) (st : GoMap String × GoMap Bool) (kv : EnvMetadata)
    (key : String) (h : attrKey lower kv = some key) :
    metaStep lower port st kv =
      if st.2.get? key = some true then st
      else
        match atoi (splitN2 key).1, (splitN2 key).2 with
        | some _, some rest =>
          if (splitN2 key).1 ≠ port then st
          else (st.1.set rest kv.Value, st.2.set rest true)
        | _, _ => (st.1.set key kv.Value, st.2) := by
  obtain ⟨hp, hk⟩ := attrKey_eq_some kv key h
  unfold metaStep
  rw [if_pos hp]
  simp only [hk]

theorem metaStep_of_attrKey_none (port : String) (st : GoMap String × GoMap Bool)
    (kv : EnvMetadata) (h : attrKey lower kv = none) : metaStep lower port st kv = st := by
  unfold attrKey at h
  by_cases hp : hasPrefix kv.Key "SERVICE_" = true
  · rw [if_pos hp] at h
    cases h
  · unfold metaStep
    rw [if_neg hp]

theorem metaStep_scoped (port : String) (st : GoMap String × GoMap Bool) (kv : EnvMetadata)
    (x key : String) (h1 : scopedAttr lower port kv = some x) (h2 : attrKey lower kv = some key)
    (h3 : st.2.get? key ≠ some true) :
    metaStep lower port st kv = (st.1.set x kv.Value, st.2.set x true) := by
  rw [metaStep_of_attrKey port st kv key h2, if_neg h3]
  unfold scopedAttr at h1
  rw [h2] at h1
  simp only [Option.some_bind] at h1
  cases hn : atoi (splitN2 key).1 with
  | none => simp [hn] at h1
  | some n =>
    cases hr : (splitN2 key).2 with
    | none => simp [hn, hr] at h1
    | some rest =>
      simp only [hn, hr] at h1
      by_cases hport : (splitN2 key).1 = port
      · rw [if_pos hport] at h1
        simp only [Option.some.injEq] at h1
        simp [hport, h1]
      · rw [if_neg hport] at h1
        cases h1

theorem globalAttr_key (kv : EnvMetadata) (x key : String) (h1 : globalAttr lower kv = some x)
    (h2 : attrKey lower kv = some key) : x = key := by
  unfold globalAttr at h1
  rw [h2] at h1
  simp only [Option.some_bind] at h1
  cases hn : atoi (splitN2 key).1 with
  | none => simpa [hn] using h1.symm
  | some n =>
    cases hr : (splitN2 key).2 with
    | none => simpa [hn, hr] using h1.symm
    | some rest => simp [hn, hr] at h1

theorem metaStep_global (port : String) (st : GoMap String × GoMap Bool) (kv : EnvMetadata)
    (x : String) (h1 : globalAttr lower kv = some x) (h3 : st.2.get? x ≠ some true) :
    metaStep lower port st kv = (st.1.set x kv.Value, st.2) := by
  cases h2 : attrKey lower kv with
  | none => simp [globalAttr, h2] at h1
  | some key =>
    have hx := globalAttr_key kv x key h1 h2
    subst hx
    rw [metaStep_of_attrKey port st kv x h2, if_neg h3]
    unfold globalAttr at h1
    rw [h2] at h1
    simp only [Option.some_bind] at h1
    cases hn : atoi (splitN2 x).1 with
    | none => simp
    | some n =>
      cases hr : (splitN2 x).2 with
      | none => simp
      | some rest => simp [hn, hr] at h1

theorem metaStep_cases (port : String) (st : GoMap String × GoMap Bool) (kv : EnvMetadata) :
    metaStep lower port st kv = st ∨
    (∃ x, scopedAttr lower port kv = some x ∧
      metaStep lower port st kv = (st.1.set x kv.Value, st.2.set x true)) ∨
    (∃ x, globalAttr lower kv = some x ∧ st.2.get? x ≠ some true ∧
      metaStep lower port st kv = (st.1.set x kv.Value, st.2)) := by
  cases hk : attrKey lower kv with
  | none => exact Or.inl (metaStep_of_attrKey_none port st kv hk)
  | some key =>
    by_cases hm : st.2.get? key = some true
    · left
      rw [metaStep_of_attrKey port st kv key hk, if_pos hm]
    · cases hs : scopedAttr lower port kv with
      | some x => exact Or.inr (Or.inl ⟨x, rfl, metaStep_scoped port st kv x key hs hk hm⟩)
      | none =>
        cases hg : globalAttr lower kv with
        | some x =>
          have hx := globalAttr_key kv x key hg hk
          subst hx
          exact Or.inr (Or.inr ⟨x, rfl, hm, metaStep_global port st kv x hg hm⟩)
        | none =>
          left
          rw [metaStep_of_attrKey port st kv key hk, if_neg hm]
          unfold scopedAttr at hs
          unfold globalAttr at hg
          rw [hk] at hs hg
          simp only [Option.some_bind] at hs hg
          cases hn : atoi (splitN2 key).1 with
          | none => simp [hn] at hg
          | some n =>
            cases hr : (splitN2 key).2 with
            | none => simp [hn, hr] at hg
            | some rest =>
              simp only [hn, hr] at hs ⊢
              by_cases hport : (splitN2 key).1 = port
              · simp [hport] at hs
              · simp [hport]

theorem metaStep_mark_mono (port : String) (st : GoMap String × GoMap Bool) (kv : EnvMetadata)
    (k : String) (h : st.2.get? k = some true) : (metaStep lower port st kv).2.get? k = some true := by
  rcases metaStep_cases port st kv with h0 | ⟨x, _, h1⟩ | ⟨x, _, _, h1⟩
  · rw [h0]
    exact h
  · rw [h1]
    by_cases hk : k = x
    · subst hk
      exact GoMap.get?_set_self _ _ _
    · show (st.2.set x true).get? k = some true
      rw [GoMap.get?_set_ne _ _ hk]
      exact h
  · rw [h1]
    exact h

theorem metaStep_mark_origin (port : String) (st : GoMap String × GoMap Bool) (kv : EnvMetadata)
    (k : String) (h : (metaStep lower port st kv).2.get? k = some true) :
    st.2.get? k = some true ∨ scopedAttr lower port kv = some k := by
  rcases metaStep_cases port st kv with h0 | ⟨x, hx, h1⟩ | ⟨x, _, _, h1⟩
  · rw [h0] at h
    exact Or.inl h
  · rw [h1] at h
    by_cases hk : k = x
    · subst hk
      exact Or.inr hx
    · change (st.2.set x true).get? k = some true at h
      rw [GoMap.get?_set_ne _ _ hk] at h
      exact Or.inl h
  · rw [h1] at h
    exact Or.inl h

theorem foldl_metaStep_mark_origin (port : String) (l : List EnvMetadata) (k : String) :
    ∀ st : GoMap String × GoMap Bool, (l.foldl (metaStep lower port) st).2.get? k = some true →
      st.2.get? k = some true ∨ ∃ kv ∈ l, scopedAttr lower port kv = some k := by
  induction l with
  | nil =>
    intro st h
    exact Or.inl h
  | cons kv l ih =>
    intro st h
    rw [List.foldl_cons] at h
    rcases ih _ h with h1 | ⟨kv', hkv', h1⟩
    · rcases metaStep_mark_origin port st kv k h1 with h2 | h2
      · exact Or.inl h2
      · exact Or.inr ⟨kv, List.mem_cons_self _ _, h2⟩
    · exact Or.inr ⟨kv', List.mem_cons_of_mem _ hkv', h1⟩

theorem metaStep_keep_marked (port : String) (st : GoMap String × GoMap Bool) (kv : EnvMetadata)
    (x : String) (hm : st.2.get? x = some true) (hs : scopedAttr lower port kv ≠ some x) :
    (metaStep lower port st kv).1.get? x = st.1.get? x := by
  rcases metaStep_cases port st kv with h0 | ⟨y, hy, h1⟩ | ⟨y, _, hy, h1⟩
  · rw [h0]
  · rw [h1]
    have hne : x ≠ y := fun h => hs (h ▸ hy)
    exact GoMap.get?_set_ne _ _ hne
  · rw [h1]
    have hne : x ≠ y := fun h => hy (h ▸ hm)
    exact GoMap.get?_set_ne _ _ hne

theorem metaStep_keep_unset (port : String) (st : GoMap String × GoMap Bool) (kv : EnvMetadata)
    (x : String) (hs : scopedAttr lower port kv ≠ some x) (hg : globalAttr lower kv ≠ some x) :
    (metaStep lower port st kv).1.get? x = st.1.get? x := by
  rcases metaStep_cases port st kv with h0 | ⟨y, hy, h1⟩ | ⟨y, hy, _, h1⟩
  · rw [h0]
  · rw [h1]
    have hne : x ≠ y := fun h => hs (h ▸ hy)
    exact GoMap.get?_set_ne _ _ hne
  · rw [h1]
    have hne : x ≠ y := fun h => hg (h ▸ hy)
    exact GoMap.get?_set_ne _ _ hne

theorem foldl_metaStep_keep_marked (port : String) (l : List EnvMetadata) (x : String)
    (hs : ∀ kv ∈ l, scopedAttr lower port kv ≠ some x) :
    ∀ st : GoMap String × GoMap Bool, st.2.get? x = some true →
      (l.foldl (metaStep lower port) st).1.get? x = st.1.get? x ∧
      (l.foldl (metaStep lower port) st).2.get? x = some true := by
  induction l with
  | nil =>
    intro st hm
    exact ⟨rfl, hm⟩
  | cons kv l ih =>
    intro st hm
    rw [List.foldl_cons]
    obtain ⟨h1, h2⟩ := ih (fun kv' h => hs kv' (List.mem_cons_of_mem _ h)) (metaStep lower port st kv)
      (metaStep_mark_mono port st kv x hm)
    exact ⟨h1.trans (metaStep_keep_marked port st kv x hm (hs kv (List.mem_cons_self _ _))), h2⟩

theorem foldl_metaStep_keep_unset (port : String) (l : List EnvMetadata) (x : String)
    (hs : ∀ kv ∈ l, scopedAttr lower port kv ≠ some x) (hg : ∀ kv ∈ l, globalAttr lower kv ≠ some x) :
    ∀ st : GoMap String × GoMap Bool,
      (l.foldl (metaStep lower port) st).1.get? x = st.1.get? x := by
  induction l with
  | nil =>
    intro st
    rfl
  | cons kv l ih =>
    intro st
    rw [List.foldl_cons]
    rw [ih (fun kv' h => hs kv' (List.mem_cons_of_mem _ h))
      (fun kv' h => hg kv' (List.mem_cons_of_mem _ h))]
    exact metaStep_keep_unset port st kv x (hs kv (List.mem_cons_self _ _))
      (hg kv (List.mem_cons_self _ _))

theorem serviceMetaData_scoped (envs pre post : List EnvMetadata) (s : EnvMetadata)
    (port x : String) (hs : envs = pre ++ s :: post) (hsx : scopedAttr lower port s = some x)
    (hpost : ∀ kv ∈ post, scopedAttr lower port kv ≠ some x)
    (hcol : ∀ kv ∈ pre, scopedAttr lower port kv ≠ attrKey lower s) :
    (envs.foldl (metaStep lower port) ([], [])).1.get? x = some s.Value ∧
    (envs.foldl (metaStep lower port) ([], [])).2.get? x = some true := by
  subst hs
  rw [List.foldl_append, List.foldl_cons]
  cases hk : attrKey lower s with
  | none => simp [scopedAttr, hk] at hsx
  | some key =>
    have hunmarked : (pre.foldl (metaStep lower port) ([], [])).2.get? key ≠ some true := by
      intro hm
      rcases foldl_metaStep_mark_origin port pre key _ hm with h | ⟨kv, hkv, h⟩
      · simp [GoMap.get?] at h
      · exact hcol kv hkv (h.trans hk.symm)
    have hstep := metaStep_scoped port (pre.foldl (metaStep lower port) ([], [])) s x key hsx hk hunmarked
    obtain ⟨h1, h2⟩ := foldl_metaStep_keep_marked port post x hpost
      (metaStep lower port (pre.foldl (metaStep lower port) ([], [])) s)
      (by rw [hstep]; exact GoMap.get?_set_self _ _ _)
    refine ⟨h1.trans ?_, h2⟩
    rw [hstep]
    exact GoMap.get?_set_self _ _ _

theorem serviceMetaData_global (envs pre post : List EnvMetadata) (g : EnvMetadata)
    (port x : String) (hg : envs = pre ++ g :: post) (hgx : globalAttr lower g = some x)
    (hpost : ∀ kv ∈ post, globalAttr lower kv ≠ some x)
    (hport : ∀ kv ∈ envs, scopedAttr lower port kv ≠ some x) :
    (envs.foldl (metaStep lower port) ([], [])).1.get? x = some g.Value := by
  subst hg
  rw [List.foldl_append, List.foldl_cons]
  have hunmarked : (pre.foldl (metaStep lower port) ([], [])).2.get? x ≠ some true := by
    intro hm
    rcases foldl_metaStep_mark_origin port pre x _ hm with h | ⟨kv, hkv, h⟩
    · simp [GoMap.get?] at h
    · exact hport kv (List.mem_append_left _ hkv) h
  have hstep := metaStep_global port (pre.foldl (metaStep lower port) ([], [])) g x hgx hunmarked
  rw [foldl_metaStep_keep_unset port post x
    (fun kv h => hport kv (List.mem_append_right _ (List.mem_cons_of_mem _ h))) hpost, hstep]
  exact GoMap.get?_set_self _ _ _

/-! ### The canonical keys `SERVICE_<port>_<X>` and `SERVICE_<X>` -/

theorem digitsValue_isDigit (ds : List Char) :
    ∀ (acc n : Nat), digitsValue ds acc = some n → ∀ c ∈ ds, c.isDigit = true := by
  induction ds with
  | nil =>
    intro acc n _ c hc
    cases hc
  | cons d ds ih =>
    intro acc n h c hc
    unfold digitsValue at h
    by_cases hd : d.isDigit = true
    · rw [if_pos hd] at h
      rcases List.mem_cons.1 hc with rfl | hc
      · exact hd
      · exact ih _ _ h c hc
    · rw [if_neg hd] at h
      cases h

theorem atoi_chars (s : String) (h : (atoi s).isSome = true) :
    ∀ c ∈ s.data, c.isDigit = true ∨ c = '-' ∨ c = '+' := by
  have body : ∀ (ds : List Char) (o : Option Int),
      (match ds with
        | [] => (none : Option Int)
        | _ =>
          match digitsValue ds 0 with
          | none => none
          | some n => o) = none ∨ ∀ c ∈ ds, c.isDigit = true := by
    intro ds o
    cases ds with
    | nil => exact Or.inl rfl
    | cons d ds =>
      cases hv : digitsValue (d :: ds) 0 with
      | none => exact Or.inl (by simp)
      | some n => exact Or.inr (digitsValue_isDigit _ _ _ hv)
  unfold atoi at h
  intro c hc
  split at h
  · simp at h
  · rename_i ds hds
    rw [hds] at hc
    rcases List.mem_cons.1 hc with rfl | hc
    · exact Or.inr (Or.inl rfl)
    · left
      simp only at h
      cases ds with
      | nil => simp at h
      | cons d ds =>
        cases hv : digitsValue (d :: ds) 0 with
        | none => simp [hv] at h
        | some n => exact digitsValue_isDigit _ _ _ hv c hc
  · rename_i ds hds
    rw [hds] at hc
    rcases List.mem_cons.1 hc with rfl | hc
    · exact Or.inr (Or.inr rfl)
    · left
      simp only at h
      cases ds with
      | nil => simp at h
      | cons d ds =>
        cases hv : digitsValue (d :: ds) 0 with
        | none => simp [hv] at h
        | some n => exact digitsValue_isDigit _ _ _ hv c hc
  · left
    simp only at h
    cases hds : s.data with
    | nil =>
      rw [hds] at hc
      cases hc
    | cons d ds =>
      rw [hds] at h hc
      cases hv : digitsValue (d :: ds) 0 with
      | none => simp [hv] at h
      | some n => exact digitsValue_isDigit _ _ _ hv c hc

theorem numberChar_toLower (c : Char) (h : c.isDigit = true ∨ c = '-' ∨ c = '+') :
    c.toLower = c ∧ c ≠ '_' := by
  rcases h with h | rfl | rfl
  · constructor
    · simp only [Char.isDigit, Bool.and_eq_true, decide_eq_true_eq] at h
      unfold Char.toLower
      have h2 : c.val.toNat ≤ 57 := h.2
      have h3 : ¬ (c.toNat ≥ 65 ∧ c.toNat ≤ 90) := by
        unfold Char.toNat
        omega
      simp only [h3, if_false]
    · rintro rfl
      revert h
      decide
  · decide
  · decide

theorem numberChar_toLowerRune (c : Char) (h : c.isDigit = true ∨ c = '-' ∨ c = '+') :
    toLowerRune lower c = c := by
  have hascii : c.toNat < 128 := by
    rcases h with h | rfl | rfl
    · simp only [Char.isDigit, Bool.and_eq_true, decide_eq_true_eq] at h
      have h2 : c.val.toNat ≤ 57 := h.2
      unfold Char.toNat
      omega
    · decide
    · decide
  unfold toLowerRune
  rw [if_pos hascii]
  exact (numberChar_toLower c h).1

theorem cutFirst_append (sep : Char) (a r : List Char) (h : ∀ c ∈ a, c ≠ sep) :
    cutFirst sep (a ++ sep :: r) = (a, some r) := by
  induction a with
  | nil => simp [cutFirst]
  | cons c a ih =>
    have hc : c ≠ sep := h c (List.mem_cons_self _ _)
    have ih' := ih fun d hd => h d (List.mem_cons_of_mem _ hd)
    simp [cutFirst, hc, ih']

theorem attrKey_service (y v : String) :
    attrKey lower ⟨"SERVICE_" ++ y, v⟩ = some (toLower lower y) := by
  have hp : hasPrefix ("SERVICE_" ++ y) "SERVICE_" = true := by
    unfold hasPrefix
    rw [String.data_append, List.isPrefixOf_iff_prefix]
    exact List.prefix_append _ _
  have ht : trimPrefix ("SERVICE_" ++ y) "SERVICE_" = y := by
    unfold trimPrefix
    rw [if_pos hp, String.data_append, List.drop_left]
  unfold attrKey
  simp only [hp, if_true, ht]

/-- The entry `SERVICE_<port>_<X>`, for a decimal number `port`, sets the
attribute `X` (lower-cased) port-scoped for `port`, and its whole key after the
prefix is `<port>_<x>`. -/
theorem scopedAttr_canonical (port X v : String) (h : (atoi port).isSome = true) :
    scopedAttr lower port ⟨"SERVICE_" ++ (port ++ "_" ++ X), v⟩ = some (toLower lower X) ∧
    attrKey lower ⟨"SERVICE_" ++ (port ++ "_" ++ X), v⟩ = some (port ++ "_" ++ toLower lower X) := by
  have hchars := atoi_chars port h
  have hlow : port.data.map (toLowerRune lower) = port.data := by
    have hmap : ∀ l : List Char, (∀ c ∈ l, toLowerRune lower c = c) →
        l.map (toLowerRune lower) = l := by
      intro l
      induction l with
      | nil =>
        intro _
        rfl
      | cons a l ih =>
        intro hl
        simp [hl a (List.mem_cons_self _ _), ih fun c hc => hl c (List.mem_cons_of_mem _ hc)]
    exact hmap _ fun c hc => numberChar_toLowerRune c (hchars c hc)
  have hus : toLowerRune lower '_' = '_' := by
    unfold toLowerRune
    rw [if_pos (by decide)]
    rfl
  have hkey : toLower lower (port ++ "_" ++ X) = port ++ "_" ++ toLower lower X := by
    unfold toLower
    apply String.ext
    simp [String.data_append, hlow, hus]
  have hsplit : splitN2 (port ++ "_" ++ toLower lower X) = (port, some (toLower lower X)) := by
    unfold splitN2
    have hd : (port ++ "_" ++ toLower lower X).data = port.data ++ '_' :: (toLower lower X).data := by
      simp [String.data_append]
    rw [hd, cutFirst_append '_' _ _ fun c hc => (numberChar_toLower c (hchars c hc)).2]
    rfl
  have hk : attrKey lower ⟨"SERVICE_" ++ (port ++ "_" ++ X), v⟩ = some (port ++ "_" ++ toLower lower X) := by
    rw [attrKey_service, hkey]
  refine ⟨?_, hk⟩
  unfold scopedAttr
  rw [hk]
  simp only [Option.some_bind, hsplit]
  cases hn : atoi port with
  | none => simp [hn] at h
  | some n => simp

/-- The entry `SERVICE_<X>` sets the attribute `X` (lower-cased) globally when
`X` does not start with a number followed by `_`. -/
theorem globalAttr_canonical (X v : String) (h : atoi (splitN2 (toLower lower X)).1 = none) :
    globalAttr lower ⟨"SERVICE_" ++ X, v⟩ = some (toLower lower X) := by
  unfold globalAttr
  rw [attrKey_service]
  simp only [Option.some_bind, h]

theorem newService_some (Hostname : String) (config : Config) (sp : ServicePort) (isGroup : Bool)
    (svc : Service) (h : newService lower Hostname config sp isGroup = some svc) :
    svc.Name =
      (if isGroup = true ∧
          ¬ ((serviceMetaData lower sp.container sp.ExposedPort).2.get? "name" = some true) then
        mapDefault (serviceMetaData lower sp.container sp.ExposedPort).1 "name" "" ++ "-" ++
          sp.ExposedPort
      else mapDefault (serviceMetaData lower sp.container sp.ExposedPort).1 "name" "") ∧
    svc.Attrs =
      ((((serviceMetaData lower sp.container sp.ExposedPort).1.delete "id").delete "tags").delete
        "name") := by
  unfold newService at h
  simp only at h
  split at h
  · cases h
  · split at h
    · cases h
    · split at h
      · cases h
      · simp only [Option.some.injEq] at h
        subst h
        exact ⟨rfl, rfl⟩

theorem mapDefault_of_get? (m : GoMap String) (key v : String) (h : m.get? key = some v) :
    mapDefault m key "" = v := by
  unfold mapDefault
  rw [h]
  by_cases hv : v = ""
  · simp [hv]
  · simp [hv]

/-- C10 (amended): let the environment of a container set the attribute `x`
port-scoped for `port` by the entry `s` (the last entry doing so) and globally by
the entry `g` (the last entry doing so), in either order, and let no entry before
`s` set, port-scoped for `port`, an attribute whose name is the whole lower-cased
key of `s` after the prefix.  Then `serviceMetaData(container, port)` maps `x` to
the value of `s` and marks `x` as port-derived, so a service built for that port
carries the value of `s` (as its `Name` when `x` is `name`, in `Attrs` when `x`
is none of `id`, `tags`, `name`); and for a port `p'` for which no entry sets `x`
port-scoped, `serviceMetaData(container, p')` maps `x` to the value of `g`. -/
theorem scoped_attribute_wins (lower : Char → Char) (c : K8SScheduleContainer)
    (port p' x : String)
    (s g : EnvMetadata) (pre post pre' post' : List EnvMetadata)
    (hs : c.ContainerMetadata.Metadata.Config.Envs = pre ++ s :: post)
    (hg : c.ContainerMetadata.Metadata.Config.Envs = pre' ++ g :: post')
    (hsx : scopedAttr lower port s = some x) (hgx : globalAttr lower g = some x)
    (hpost : ∀ kv ∈ post, scopedAttr lower port kv ≠ some x)
    (hpost' : ∀ kv ∈ post', globalAttr lower kv ≠ some x)
    (hcol : ∀ kv ∈ pre, scopedAttr lower port kv ≠ attrKey lower s)
    (hp' : ∀ kv ∈ c.ContainerMetadata.Metadata.Config.Envs, scopedAttr lower p' kv ≠ some x) :
    (serviceMetaData lower c port).1.get? x = some s.Value ∧
    (serviceMetaData lower c port).2.get? x = some true ∧
    (serviceMetaData lower c p').1.get? x = some g.Value ∧
    (∀ (Hostname : String) (config : Config) (sp : ServicePort) (isGroup : Bool) (svc : Service),
      sp.container = c → sp.ExposedPort = port →
      newService lower Hostname config sp isGroup = some svc →
        (x = "name" → svc.Name = s.Value) ∧
        (x ≠ "id" → x ≠ "tags" → x ≠ "name" → svc.Attrs.get? x = some s.Value)) := by
  obtain ⟨h1, h2⟩ := serviceMetaData_scoped _ pre post s port x hs hsx hpost hcol
  have h3 := serviceMetaData_global _ pre' post' g p' x hg hgx hpost' hp'
  refine ⟨h1, h2, h3, ?_⟩
  intro Hostname config sp isGroup svc hc hport hsvc
  obtain ⟨hname, hattrs⟩ := newService_some Hostname config sp isGroup svc hsvc
  rw [hc, hport] at hname hattrs
  constructor
  · intro hx
    subst hx
    have h1' : (serviceMetaData lower c port).1.get? "name" = some s.Value := h1
    have h2' : (serviceMetaData lower c port).2.get? "name" = some true := h2
    rw [hname, mapDefault_of_get? _ _ _ h1', if_neg (by simp [h2'])]
  · intro hid htags hn
    rw [hattrs, GoMap.get?_delete_ne _ hn, GoMap.get?_delete_ne _ htags,
      GoMap.get?_delete_ne _ hid]
    exact h1

/-- Witness of `scoped_attribute_wins`: `SERVICE_80_NAME=api` comes before
`SERVICE_NAME=web`; for port 80 the name is `api`, for port 53 it is `web`.  And
in the environment `SERVICE_80_IP=s`, `SERVICE_IP=g`, `SERVICE_80_İP=z` the last
entry is the last one that sets `ip` for port 80, since `İ` lower-cases to `i`:
for port 80 the attribute `ip` is `z`, for port 53 it is `g`. -/
theorem scoped_attribute_wins_witness :
    (serviceMetaData exLower (exPort [⟨"SERVICE_80_NAME", "api"⟩, ⟨"SERVICE_NAME", "web"⟩] "80"
        "tcp").container "80").1.get? "name" = some "api" ∧
    (serviceMetaData exLower (exPort [⟨"SERVICE_80_NAME", "api"⟩, ⟨"SERVICE_NAME", "web"⟩] "80"
        "tcp").container "53").1.get? "name" = some "web" ∧
    scopedAttr exLower "80" ⟨"SERVICE_80_İP", "z"⟩ = some "ip" ∧
    (serviceMetaData exLower
      (exPort [⟨"SERVICE_80_IP", "s"⟩, ⟨"SERVICE_IP", "g"⟩, ⟨"SERVICE_80_İP", "z"⟩] "80"
        "tcp").container "80").1.get? "ip" = some "z" ∧
    (serviceMetaData exLower
      (exPort [⟨"SERVICE_80_IP", "s"⟩, ⟨"SERVICE_IP", "g"⟩, ⟨"SERVICE_80_İP", "z"⟩] "80"
        "tcp").container "53").1.get? "ip" = some "g" :=
  have h := scoped_attribute_wins exLower
    (exPort [⟨"SERVICE_80_NAME", "api"⟩, ⟨"SERVICE_NAME", "web"⟩] "80" "tcp").container
    "80" "53" "name" ⟨"SERVICE_80_NAME", "api"⟩ ⟨"SERVICE_NAME", "web"⟩
    [] [⟨"SERVICE_NAME", "web"⟩] [⟨"SERVICE_80_NAME", "api"⟩] []
    rfl rfl (by decide) (by decide) (by decide) (by decide) (by decide) (by decide)
  have h' := scoped_attribute_wins exLower
    (exPort [⟨"SERVICE_80_IP", "s"⟩, ⟨"SERVICE_IP", "g"⟩, ⟨"SERVICE_80_İP", "z"⟩] "80"
      "tcp").container
    "80" "53" "ip" ⟨"SERVICE_80_İP", "z"⟩ ⟨"SERVICE_IP", "g"⟩
    [⟨"SERVICE_80_IP", "s"⟩, ⟨"SERVICE_IP", "g"⟩] [] [⟨"SERVICE_80_IP", "s"⟩]
    [⟨"SERVICE_80_İP", "z"⟩]
    rfl rfl (by decide) (by decide) (by decide) (by decide) (by decide) (by decide)
  ⟨h.1, h.2.2.1, by decide, h'.1, h'.2.2.1⟩

/-- C10 as stated fails: the environment sets `x` globally (`SERVICE_X=g`) and
port-scoped for port 80 (`SERVICE_80_X=s`), and an earlier entry
`SERVICE_80_80_X=t` has marked the key `80_x` as port-derived; the port-scoped
entry is skipped, `x` maps to the global value and is not marked. -/
theorem scoped_attribute_counterexample :
    globalAttr exLower ⟨"SERVICE_X", "g"⟩ = some "x" ∧
    scopedAttr exLower "80" ⟨"SERVICE_80_X", "s"⟩ = some "x" ∧
    (serviceMetaData exLower
        (exPort [⟨"SERVICE_80_80_X", "t"⟩, ⟨"SERVICE_X", "g"⟩, ⟨"SERVICE_80_X", "s"⟩] "80"
          "tcp").container "80").1.get? "x" = some "g" ∧
    (serviceMetaData exLower
        (exPort [⟨"SERVICE_80_80_X", "t"⟩, ⟨"SERVICE_X", "g"⟩, ⟨"SERVICE_80_X", "s"⟩] "80"
          "tcp").container "80").2.get? "x" = none := by
  decide

/-! ## Startup validation of the TTL options -/

/-- On values of `-ttl` and `-ttl-refresh` that are not negative, the startup
check accepts the pair exactly when both are zero, or both are positive and the
TTL is strictly greater than the refresh interval. -/
theorem checkTtl_nonneg (refreshTtl refreshInterval : Int) (hTtl : 0 ≤ refreshTtl)
    (hInterval : 0 ≤ refreshInterval) :
    checkTtl refreshTtl refreshInterval = none ↔
      (refreshTtl = 0 ∧ refreshInterval = 0) ∨
      (0 < refreshTtl ∧ 0 < refreshInterval ∧ refreshInterval < refreshTtl) := by
  unfold checkTtl
  split
  · rename_i h
    simp only [false_iff, reduceCtorEq]
    omega
  · rename_i h
    split
    · rename_i h2
      simp only [false_iff, reduceCtorEq]
      omega
    · rename_i h2
      simp only [true_iff]
      omega

/-- The startup check lets through every pair with a negative TTL and every pair
with a negative refresh interval. -/
theorem checkTtl_negative (refreshTtl refreshInterval : Int)
    (h : refreshTtl < 0 ∨ refreshInterval < 0) : checkTtl refreshTtl refreshInterval = none := by
  unfold checkTtl
  rw [if_neg (by omega), if_neg (by omega)]

/-- C13, the code at the failing inputs: the startup check accepts `-ttl=-1`
given alone (refresh interval 0), `-ttl-refresh=-1` given alone, TTL 5 with
refresh interval -1, for which `main` starts no refresh ticker, and the pair
`(-2, -3)`; none of them is both zero or both positive. -/
theorem checkTtl_negative_accepted :
    checkTtl (-1) 0 = none ∧ checkTtl 0 (-1) = none ∧
    (checkTtl 5 (-1) = none ∧ startsRefreshTicker (-1) = false) ∧
    checkTtl (-2) (-3) = none := by
  decide

/-! ## `strconv.Itoa` -/

theorem digitChar_digit (k : Nat) (h : k < 10) :
    (Nat.digitChar k).isDigit = true ∧ (Nat.digitChar k).toNat - 48 = k := by
  interval_cases k <;> decide

theorem digitsValue_toDigitsCore (fuel : Nat) :
    ∀ (n : Nat) (ds : List Char), n < fuel →
      digitsValue (Nat.toDigitsCore 10 fuel n ds) 0 = digitsValue ds n := by
  induction fuel with
  | zero =>
    intro n ds h
    omega
  | succ fuel ih =>
    intro n ds h
    obtain ⟨hd1, hd2⟩ := digitChar_digit (n % 10) (Nat.mod_lt _ (by decide))
    simp only [Nat.toDigitsCore]
    split
    · rename_i h0
      have hn : n % 10 = n := by omega
      rw [hn] at hd1 hd2
      simp only [digitsValue, hn, hd1, if_true, hd2, Nat.zero_mul, Nat.zero_add]
    · rename_i h0
      rw [ih (n / 10) _ (by omega)]
      simp only [digitsValue, hd1, if_true, hd2]
      congr 1
      omega

theorem digitsValue_toDigits (n : Nat) : digitsValue (Nat.toDigits 10 n) 0 = some n := by
  unfold Nat.toDigits
  rw [digitsValue_toDigitsCore (n + 1) n [] (Nat.lt_succ_self n)]
  rfl

theorem toDigits_injective (m n : Nat) (h : Nat.toDigits 10 m = Nat.toDigits 10 n) : m = n := by
  have h1 := digitsValue_toDigits m
  rw [h, digitsValue_toDigits n] at h1
  exact (Option.some.inj h1).symm

theorem toDigits_isDigit (n : Nat) : ∀ c ∈ Nat.toDigits 10 n, c.isDigit = true :=
  digitsValue_isDigit _ 0 n (digitsValue_toDigits n)

theorem toDigits_ne_nil (n : Nat) : Nat.toDigits 10 n ≠ [] := by
  intro h
  have h1 := digitsValue_toDigits n
  rw [h] at h1
  have h2 : n = 0 := by
    simpa [digitsValue] using h1.symm
  subst h2
  revert h
  decide

theorem itoa_injective (m n : Int) (h : itoa m = itoa n) : m = n := by
  have hminus : ∀ (j k : Nat), Nat.toDigits 10 j ≠ '-' :: Nat.toDigits 10 k := by
    intro j k hjk
    have hd := toDigits_isDigit j '-' (by rw [hjk]; exact List.mem_cons_self _ _)
    revert hd
    decide
  have h := congrArg String.data h
  cases m with
  | ofNat j =>
    cases n with
    | ofNat k =>
      simp only [itoa] at h
      rw [toDigits_injective j k h]
    | negSucc k =>
      simp only [itoa] at h
      exact absurd h (hminus j (k + 1))
  | negSucc j =>
    cases n with
    | ofNat k =>
      simp only [itoa] at h
      exact absurd h.symm (hminus k (j + 1))
    | negSucc k =>
      simp only [itoa, List.cons.injEq, true_and] at h
      have := toDigits_injective _ _ h
      have hjk : j = k := by omega
      rw [hjk]

/-! ## Maps built by repeated assignment -/

theorem GoMap.keys_delete {V : Type} (m : GoMap V) (k : String) :
    GoMap.keys (m.delete k) = (GoMap.keys m).filter fun k' => decide (k' ≠ k) := by
  induction m with
  | nil => rfl
  | cons e m ih =>
    obtain ⟨k₀, v⟩ := e
    by_cases h₀ : k₀ = k
    · subst h₀
      rw [GoMap.delete_cons_self]
      simp [GoMap.keys, ih, List.filter_cons]
      simpa [GoMap.keys] using ih
    · rw [GoMap.delete_cons_ne v m h₀]
      simp [GoMap.keys, List.filter_cons, h₀]
      simpa [GoMap.keys] using ih

theorem GoMap.set_keys_nodup {V : Type} (m : GoMap V) (k : String) (v : V)
    (h : (GoMap.keys m).Nodup) : (GoMap.keys (m.set k v)).Nodup := by
  have hk : GoMap.keys (m.set k v) = GoMap.keys (m.delete k) ++ [k] := by
    simp [GoMap.set, GoMap.keys]
  rw [hk, GoMap.keys_delete, List.nodup_append]
  refine ⟨h.filter _, List.nodup_singleton k, ?_⟩
  intro a ha hb
  rw [List.mem_singleton] at hb
  subst hb
  simp [List.mem_filter] at ha

theorem GoMap.get?_of_mem {V : Type} (m : GoMap V) (k : String) (v : V)
    (hn : (GoMap.keys m).Nodup) (h : (k, v) ∈ m) : GoMap.get? m k = some v := by
  induction m with
  | nil => cases h
  | cons e m ih =>
    obtain ⟨k₀, v₀⟩ := e
    simp only [GoMap.keys, List.map_cons, List.nodup_cons] at hn
    rcases List.mem_cons.1 h with h1 | h1
    · simp only [Prod.mk.injEq] at h1
      obtain ⟨rfl, rfl⟩ := h1
      simp [GoMap.get?]
    · have hne : k₀ ≠ k := by
        rintro rfl
        exact hn.1 (List.mem_map_of_mem Prod.fst h1)
      simp only [GoMap.get?, hne, if_false]
      exact ih hn.2 h1

theorem foldl_set_keys {α V : Type} (key : α → String) (val : α → V) (l : List α) :
    ∀ (m₀ : GoMap V) (k : String),
      k ∈ GoMap.keys (l.foldl (fun m a => GoMap.set m (key a) (val a)) m₀) ↔
        k ∈ GoMap.keys m₀ ∨ ∃ a ∈ l, key a = k := by
  induction l with
  | nil =>
    intro m₀ k
    simp
  | cons a l ih =>
    intro m₀ k
    rw [List.foldl_cons, ih, GoMap.mem_keys_set]
    constructor
    · rintro ((h | h) | ⟨b, hb, h⟩)
      · exact Or.inr ⟨a, List.mem_cons_self _ _, h.symm⟩
      · exact Or.inl h
      · exact Or.inr ⟨b, List.mem_cons_of_mem _ hb, h⟩
    · rintro (h | ⟨b, hb, h⟩)
      · exact Or.inl (Or.inr h)
      · rcases List.mem_cons.1 hb with rfl | hb
        · exact Or.inl (Or.inl h.symm)
        · exact Or.inr ⟨b, hb, h⟩

theorem foldl_set_nodup {α V : Type} (key : α → String) (val : α → V) (l : List α) :
    ∀ m₀ : GoMap V, (GoMap.keys m₀).Nodup →
      (GoMap.keys (l.foldl (fun m a => GoMap.set m (key a) (val a)) m₀)).Nodup := by
  induction l with
  | nil =>
    intro m₀ h
    exact h
  | cons a l ih =>
    intro m₀ h
    rw [List.foldl_cons]
    exact ih _ (GoMap.set_keys_nodup m₀ _ _ h)

theorem foldl_set_get?_other {α V : Type} (key : α → String) (val : α → V) (l : List α)
    (k : String) (h : ∀ a ∈ l, key a ≠ k) :
    ∀ m₀ : GoMap V,
      GoMap.get? (l.foldl (fun m a => GoMap.set m (key a) (val a)) m₀) k = GoMap.get? m₀ k := by
  induction l with
  | nil =>
    intro m₀
    rfl
  | cons a l ih =>
    intro m₀
    rw [List.foldl_cons, ih fun b hb => h b (List.mem_cons_of_mem _ hb)]
    exact GoMap.get?_set_ne _ _ (Ne.symm (h a (List.mem_cons_self _ _)))

theorem foldl_set_get?_last {α V : Type} (key : α → String) (val : α → V)
    (pre post : List α) (a : α) (m₀ : GoMap V) (h : ∀ q ∈ post, key q ≠ key a) :
    GoMap.get? ((pre ++ a :: post).foldl (fun m a => GoMap.set m (key a) (val a)) m₀) (key a) =
      some (val a) := by
  rw [List.foldl_append, List.foldl_cons, foldl_set_get?_other key val post (key a) h]
  exact GoMap.get?_set_self _ _ _

theorem exists_last_occurrence {α : Type} (P : α → Prop) (l : List α) (h : ∃ a ∈ l, P a) :
    ∃ pre a post, l = pre ++ a :: post ∧ P a ∧ ∀ q ∈ post, ¬ P q := by
  induction l with
  | nil =>
    obtain ⟨a, ha, _⟩ := h
    cases ha
  | cons x xs ih =>
    by_cases hx : ∃ a ∈ xs, P a
    · obtain ⟨pre, a, post, hl, ha, hpost⟩ := ih hx
      exact ⟨x :: pre, a, post, by rw [hl]; rfl, ha, hpost⟩
    · obtain ⟨a, ha, hPa⟩ := h
      rcases List.mem_cons.1 ha with rfl | ha
      · exact ⟨[], a, xs, rfl, hPa, fun q hq hPq => hx ⟨q, hq, hPq⟩⟩
      · exact absurd ⟨a, ha, hPa⟩ hx

/-! ## `extractK8SSchedulePorts` -/

theorem extract_eq (unmarshal : String → Option (List PortMapping)) (c : K8SScheduleContainer)
    (pms : List PortMapping) (hignore : GetEnv c.ContainerSpec "SERVICE_IGNORE" = "")
    (hjson : portsJSON c ≠ "") (hparse : unmarshal (portsJSON c) = some pms) :
    extractK8SSchedulePorts lower unmarshal c =
      pms.foldl
        (fun ports pm => GoMap.set ports (itoa pm.ContainerPort) (servicePortOf lower c pm)) [] := by
  unfold portsJSON at hjson hparse
  unfold extractK8SSchedulePorts
  simp only [hignore, ne_eq, not_true_eq_false, if_false, hjson, hparse]
  rfl

theorem extract_mem (unmarshal : String → Option (List PortMapping)) (c : K8SScheduleContainer)
    (pms : List PortMapping) (hignore : GetEnv c.ContainerSpec "SERVICE_IGNORE" = "")
    (hjson : portsJSON c ≠ "") (hparse : unmarshal (portsJSON c) = some pms)
    (kv : String × ServicePort) (hkv : kv ∈ extractK8SSchedulePorts lower unmarshal c) :
    ∃ pre pm post, pms = pre ++ pm :: post ∧
      (∀ q ∈ post, q.ContainerPort ≠ pm.ContainerPort) ∧
      kv = (itoa pm.ContainerPort, servicePortOf lower c pm) := by
  rw [extract_eq unmarshal c pms hignore hjson hparse] at hkv
  have hnd := foldl_set_nodup (fun pm : PortMapping => itoa pm.ContainerPort) (servicePortOf lower c)
    pms [] List.nodup_nil
  have hget := GoMap.get?_of_mem _ kv.1 kv.2 hnd hkv
  have hk : kv.1 ∈ GoMap.keys (pms.foldl
      (fun ports pm => GoMap.set ports (itoa pm.ContainerPort) (servicePortOf lower c pm)) []) :=
    List.mem_map_of_mem Prod.fst hkv
  rw [foldl_set_keys (fun pm : PortMapping => itoa pm.ContainerPort) (servicePortOf lower c)] at hk
  rcases hk with hk | hk
  · cases hk
  · obtain ⟨pre, pm, post, hl, hpm, hpost⟩ :=
      exists_last_occurrence (fun pm : PortMapping => itoa pm.ContainerPort = kv.1) pms hk
    refine ⟨pre, pm, post, hl, ?_, ?_⟩
    · intro q hq hqp
      exact hpost q hq (by rw [hqp]; exact hpm)
    · have hlast := foldl_set_get?_last (fun pm : PortMapping => itoa pm.ContainerPort)
        (servicePortOf lower c) pre post pm [] (fun q hq h => hpost q hq (h.trans hpm))
      rw [← hl] at hlast
      simp only at hlast
      rw [hpm, hget] at hlast
      have h2 : kv.2 = servicePortOf lower c pm := Option.some.inj hlast
      exact Prod.ext hpm.symm h2

theorem extract_keys_nodup (unmarshal : String → Option (List PortMapping))
    (c : K8SScheduleContainer) (pms : List PortMapping)
    (hignore : GetEnv c.ContainerSpec "SERVICE_IGNORE" = "")
    (hjson : portsJSON c ≠ "") (hparse : unmarshal (portsJSON c) = some pms) :
    (GoMap.keys (extractK8SSchedulePorts lower unmarshal c)).Nodup := by
  rw [extract_eq unmarshal c pms hignore hjson hparse]
  exact foldl_set_nodup (fun pm : PortMapping => itoa pm.ContainerPort) (servicePortOf lower c)
    pms [] List.nodup_nil

theorem extract_keys (unmarshal : String → Option (List PortMapping))
    (c : K8SScheduleContainer) (pms : List PortMapping)
    (hignore : GetEnv c.ContainerSpec "SERVICE_IGNORE" = "")
    (hjson : portsJSON c ≠ "") (hparse : unmarshal (portsJSON c) = some pms) (k : String) :
    k ∈ GoMap.keys (extractK8SSchedulePorts lower unmarshal c) ↔
      ∃ pm ∈ pms, k = itoa pm.ContainerPort := by
  rw [extract_eq unmarshal c pms hignore hjson hparse,
    foldl_set_keys (fun pm : PortMapping => itoa pm.ContainerPort) (servicePortOf lower c)]
  constructor
  · rintro (h | ⟨pm, hpm, h⟩)
    · cases h
    · exact ⟨pm, hpm, h.symm⟩
  · rintro ⟨pm, hpm, h⟩
    exact Or.inr ⟨pm, hpm, h.symm⟩

theorem extract_length (unmarshal : String → Option (List PortMapping))
    (c : K8SScheduleContainer) (pms : List PortMapping)
    (hignore : GetEnv c.ContainerSpec "SERVICE_IGNORE" = "")
    (hjson : portsJSON c ≠ "") (hparse : unmarshal (portsJSON c) = some pms) :
    (extractK8SSchedulePorts lower unmarshal c).length =
      ((pms.map PortMapping.ContainerPort).dedup).length := by
  have hnd := @extract_keys_nodup lower unmarshal c pms hignore hjson hparse
  have hinj : Function.Injective itoa := fun m n h => itoa_injective m n h
  have hnd2 : (((pms.map PortMapping.ContainerPort).dedup).map itoa).Nodup :=
    (List.nodup_dedup _).map hinj
  have hperm : (GoMap.keys (extractK8SSchedulePorts lower unmarshal c)).Perm
      (((pms.map PortMapping.ContainerPort).dedup).map itoa) := by
    rw [List.perm_ext_iff_of_nodup hnd hnd2]
    intro k
    rw [extract_keys unmarshal c pms hignore hjson hparse]
    simp only [List.mem_map, List.mem_dedup]
    constructor
    · rintro ⟨pm, hpm, rfl⟩
      exact ⟨pm.ContainerPort, ⟨pm, hpm, rfl⟩, rfl⟩
    · rintro ⟨p, ⟨pm, hpm, rfl⟩, rfl⟩
      exact ⟨pm, hpm, rfl⟩
  have hlen := hperm.length_eq
  simpa [GoMap.keys] using hlen

/-! ### `GetEnv` on the spec environment -/

theorem cutFirst_some (sep : Char) (l : List Char) :
    ∀ a r : List Char, cutFirst sep l = (a, some r) → l = a ++ sep :: r := by
  induction l with
  | nil =>
    intro a r h
    simp [cutFirst] at h
  | cons c cs ih =>
    intro a r h
    unfold cutFirst at h
    by_cases hc : c = sep
    · rw [if_pos hc] at h
      simp only [Prod.mk.injEq, Option.some.injEq] at h
      obtain ⟨rfl, rfl⟩ := h
      rw [hc]
      rfl
    · rw [if_neg hc] at h
      simp only [Prod.mk.injEq] at h
      obtain ⟨rfl, h2⟩ := h
      have hcs := ih (cutFirst sep cs).1 r (Prod.ext rfl h2)
      simp only [List.cons_append]
      rw [← hcs]

theorem entry_of_cut (e key : String) (value : List Char)
    (hv : (cutFirst '=' e.data).2 = some value)
    (hk : String.mk (cutFirst '=' e.data).1 = key) : e = key ++ "=" ++ String.mk value := by
  have h := cutFirst_some '=' e.data (cutFirst '=' e.data).1 value (Prod.ext rfl hv)
  have hk' : key.data = (cutFirst '=' e.data).1 := by rw [← hk]
  apply String.ext
  rw [String.data_append, String.data_append, hk']
  simp only [List.append_assoc]
  exact h

theorem entry_ne_of_not_prefix (e key : String)
    (h : (key.data ++ ['=']).isPrefixOf e.data = false) : ∀ w, e ≠ key ++ "=" ++ w := by
  intro w he
  have hp : (key.data ++ ['=']).isPrefixOf e.data = true := by
    rw [List.isPrefixOf_iff_prefix, he]
    refine ⟨w.data, ?_⟩
    simp [String.data_append]
  rw [hp] at h
  exact Bool.noConfusion h

theorem getEnvLoop_absent (key : String) (env : List String)
    (h : ∀ e ∈ env, ∀ w, e ≠ key ++ "=" ++ w) : getEnvLoop key env = "" := by
  induction env with
  | nil => rfl
  | cons e env ih =>
    have ih' := ih fun e' he' => h e' (List.mem_cons_of_mem _ he')
    unfold getEnvLoop
    cases hv : (cutFirst '=' e.data).2 with
    | none => exact ih'
    | some value =>
      simp only
      by_cases hk : String.mk (cutFirst '=' e.data).1 = key
      · exact absurd (entry_of_cut e key value hv hk) (h e (List.mem_cons_self _ _) _)
      · rw [if_neg hk]
        exact ih'

theorem getEnvLoop_first (key v : String) (pre post : List String)
    (hkey : ∀ c ∈ key.data, c ≠ '=') (hpre : ∀ e ∈ pre, ∀ w, e ≠ key ++ "=" ++ w) :
    getEnvLoop key (pre ++ (key ++ "=" ++ v) :: post) = v := by
  induction pre with
  | nil =>
    have hd : (key ++ "=" ++ v).data = key.data ++ '=' :: v.data := by
      simp [String.data_append]
    have hcut := cutFirst_append '=' key.data v.data hkey
    simp only [List.nil_append]
    unfold getEnvLoop
    rw [hd, hcut]
    simp
  | cons e pre ih =>
    have ih' := ih fun e' he' => hpre e' (List.mem_cons_of_mem _ he')
    simp only [List.cons_append]
    unfold getEnvLoop
    cases hv : (cutFirst '=' e.data).2 with
    | none => exact ih'
    | some value =>
      simp only
      by_cases hk : String.mk (cutFirst '=' e.data).1 = key
      · exact absurd (entry_of_cut e key value hv hk) (hpre e (List.mem_cons_self _ _) _)
      · rw [if_neg hk]
        exact ih'

theorem literal_key_append (k v : String) : k ++ "=" ++ v = String.mk (k.data ++ '=' :: v.data) := by
  apply String.ext
  simp [String.data_append]

theorem GetEnv_absent (spec : ContainerSpec) (key : String)
    (h : ∀ e ∈ spec.Process.Env, ∀ w, e ≠ key ++ "=" ++ w) : GetEnv spec key = "" :=
  getEnvLoop_absent key spec.Process.Env h

theorem GetEnv_first (spec : ContainerSpec) (key v : String) (pre post : List String)
    (henv : spec.Process.Env = pre ++ (key ++ "=" ++ v) :: post)
    (hkey : ∀ c ∈ key.data, c ≠ '=') (hpre : ∀ e ∈ pre, ∀ w, e ≠ key ++ "=" ++ w) :
    GetEnv spec key = v := by
  unfold GetEnv
  rw [henv]
  exact getEnvLoop_first key v pre post hkey hpre

/-- C14: for a bundle without the `SERVICE_IGNORE` marker (its spec environment
has no `SERVICE_IGNORE=...` entry, or the first such entry has an empty value)
and whose ports annotation parses to the list `pms`, `extractK8SSchedulePorts`
yields a map with exactly one entry per distinct container port of `pms`, keyed
by the decimal string of the port; the entry of a port is built from the mapping
of that port that comes last in `pms`, so the map can have fewer entries than
`pms` has mappings; and each entry has `PortType` the lower-cased protocol,
`ExposedIP` the sandbox IP and `ContainerHostname` the value of the first
`HOSTNAME=...` entry of the spec environment (the empty string when there is
none). -/
theorem extract_ports (lower : Char → Char) (unmarshal : String → Option (List PortMapping))
    (c : K8SScheduleContainer) (pms : List PortMapping)
    (hignore : (∀ e ∈ c.ContainerSpec.Process.Env, ∀ v, e ≠ "SERVICE_IGNORE" ++ "=" ++ v) ∨
      ∃ before after, c.ContainerSpec.Process.Env = before ++ "SERVICE_IGNORE=" :: after ∧
        ∀ e ∈ before, ∀ v, e ≠ "SERVICE_IGNORE" ++ "=" ++ v)
    (hjson : portsJSON c ≠ "") (hparse : unmarshal (portsJSON c) = some pms) :
    (extractK8SSchedulePorts lower unmarshal c).keys.Nodup ∧
    (∀ k, k ∈ (extractK8SSchedulePorts lower unmarshal c).keys ↔
      ∃ pm ∈ pms, k = itoa pm.ContainerPort) ∧
    (extractK8SSchedulePorts lower unmarshal c).length =
      ((pms.map PortMapping.ContainerPort).dedup).length ∧
    (∀ pre pm post, pms = pre ++ pm :: post →
      (∀ q ∈ post, q.ContainerPort ≠ pm.ContainerPort) →
      (extractK8SSchedulePorts lower unmarshal c).get? (itoa pm.ContainerPort) =
        some (servicePortOf lower c pm)) ∧
    (∀ kv ∈ extractK8SSchedulePorts lower unmarshal c,
      ∃ pre pm post, pms = pre ++ pm :: post ∧
        (∀ q ∈ post, q.ContainerPort ≠ pm.ContainerPort) ∧
        kv.1 = itoa pm.ContainerPort ∧
        kv.2.ExposedPort = itoa pm.ContainerPort ∧
        kv.2.PortType = toLower lower pm.Protocol ∧
        kv.2.ExposedIP = c.SandBoxMetadata.Metadata.IP ∧
        (∀ (h : String) (before after : List String),
          c.ContainerSpec.Process.Env = before ++ ("HOSTNAME" ++ "=" ++ h) :: after →
          (∀ e ∈ before, ∀ w, e ≠ "HOSTNAME" ++ "=" ++ w) →
          kv.2.ContainerHostname = h) ∧
        ((∀ e ∈ c.ContainerSpec.Process.Env, ∀ w, e ≠ "HOSTNAME" ++ "=" ++ w) →
          kv.2.ContainerHostname = "")) := by
  have hignore' : GetEnv c.ContainerSpec "SERVICE_IGNORE" = "" := by
    rcases hignore with h | ⟨before, after, henv, hbefore⟩
    · exact GetEnv_absent c.ContainerSpec "SERVICE_IGNORE" h
    · exact GetEnv_first c.ContainerSpec "SERVICE_IGNORE" "" before after henv (by decide) hbefore
  refine ⟨extract_keys_nodup unmarshal c pms hignore' hjson hparse,
    extract_keys unmarshal c pms hignore' hjson hparse,
    extract_length unmarshal c pms hignore' hjson hparse, ?_, ?_⟩
  · intro pre pm post hl hpost
    rw [extract_eq unmarshal c pms hignore' hjson hparse, hl]
    exact foldl_set_get?_last (fun pm : PortMapping => itoa pm.ContainerPort)
      (servicePortOf lower c) pre post pm [] fun q hq h => hpost q hq (itoa_injective _ _ h)
  · intro kv hkv
    obtain ⟨pre, pm, post, hl, hpost, hk⟩ :=
      extract_mem unmarshal c pms hignore' hjson hparse kv hkv
    refine ⟨pre, pm, post, hl, hpost, ?_⟩
    rw [hk]
    refine ⟨rfl, rfl, rfl, rfl, ?_, ?_⟩
    · intro h before after henv hbefore
      exact GetEnv_first c.ContainerSpec "HOSTNAME" h before after henv (by decide) hbefore
    · intro habsent
      exact GetEnv_absent c.ContainerSpec "HOSTNAME" habsent

/-- Witness of `extract_ports`: the example container, whose spec environment
is `HOSTNAME=pod-0`, declares `53/TCP` and then `53/UDP`; the map has the single
key `53`, and its entry is the UDP port with container hostname `pod-0`. -/
theorem extract_ports_witness :
    (extractK8SSchedulePorts exLower (exUnmarshal [port53tcp, port53]) (exContainer [])).length =
      1 ∧
    ((extractK8SSchedulePorts exLower (exUnmarshal [port53tcp, port53])
      (exContainer [])).get? "53").map ServicePort.PortType = some "udp" ∧
    ∃ sp, (extractK8SSchedulePorts exLower (exUnmarshal [port53tcp, port53])
      (exContainer [])) = [("53", sp)] ∧ sp.ContainerHostname = "pod-0" :=
  have h := extract_ports exLower (exUnmarshal [port53tcp, port53]) (exContainer [])
    [port53tcp, port53]
    (Or.inl fun e he => entry_ne_of_not_prefix e "SERVICE_IGNORE"
      (by
        have he' : e = "HOSTNAME=pod-0" := by simpa [exContainer, exSpec] using he
        rw [he']
        decide))
    (by decide) (by decide)
  ⟨h.2.2.1.trans (by decide),
   by
    have h4 := h.2.2.2.1 [port53tcp] port53 [] rfl (by decide)
    have h5 : itoa port53.ContainerPort = "53" := by decide
    rw [h5] at h4
    rw [h4]
    decide,
   by
    refine ⟨servicePortOf exLower (exContainer []) port53, by decide, ?_⟩
    obtain ⟨_, _, _, _, _, _, _, _, _, hhost, _⟩ :=
      h.2.2.2.2 ("53", servicePortOf exLower (exContainer []) port53) (by decide)
    exact hhost "pod-0" [] [] rfl (fun e he => absurd he (List.not_mem_nil e))⟩

/-! ## Service names of a container with several ports -/

theorem extract_cases (unmarshal : String → Option (List PortMapping))
    (c : K8SScheduleContainer) :
    extractK8SSchedulePorts lower unmarshal c = [] ∨
    (GetEnv c.ContainerSpec "SERVICE_IGNORE" = "" ∧ portsJSON c ≠ "" ∧
      ∃ pms, unmarshal (portsJSON c) = some pms) := by
  by_cases hignore : GetEnv c.ContainerSpec "SERVICE_IGNORE" = ""
  · by_cases hjson : portsJSON c = ""
    · left
      unfold portsJSON at hjson
      unfold extractK8SSchedulePorts
      simp [hignore, hjson]
    · cases hparse : unmarshal (portsJSON c) with
      | none =>
        left
        unfold portsJSON at hjson hparse
        unfold extractK8SSchedulePorts
        simp [hignore, hjson, hparse]
      | some pms => exact Or.inr ⟨hignore, hjson, pms, rfl⟩
  · left
    unfold extractK8SSchedulePorts
    simp [hignore]

theorem extract_length_two (unmarshal : String → Option (List PortMapping))
    (c : K8SScheduleContainer) (pms : List PortMapping)
    (hignore : GetEnv c.ContainerSpec "SERVICE_IGNORE" = "")
    (hjson : portsJSON c ≠ "") (hparse : unmarshal (portsJSON c) = some pms)
    (pm₁ pm₂ : PortMapping) (h₁ : pm₁ ∈ pms) (h₂ : pm₂ ∈ pms)
    (hne : pm₁.ContainerPort ≠ pm₂.ContainerPort) :
    1 < (extractK8SSchedulePorts lower unmarshal c).length := by
  have hk₁ := (@extract_keys lower unmarshal c pms hignore hjson hparse _).2 ⟨pm₁, h₁, rfl⟩
  have hk₂ := (@extract_keys lower unmarshal c pms hignore hjson hparse _).2 ⟨pm₂, h₂, rfl⟩
  have hnd : [itoa pm₁.ContainerPort, itoa pm₂.ContainerPort].Nodup := by
    simp only [List.nodup_cons, List.mem_singleton, List.not_mem_nil, not_false_eq_true,
      List.nodup_nil, and_true]
    exact fun h => hne (itoa_injective _ _ h)
  have hsub : [itoa pm₁.ContainerPort, itoa pm₂.ContainerPort] ⊆
      GoMap.keys (extractK8SSchedulePorts lower unmarshal c) := by
    intro k hk
    simp only [List.mem_cons, List.mem_singleton, List.not_mem_nil, or_false] at hk
    rcases hk with rfl | rfl
    · exact hk₁
    · exact hk₂
  have hle := (List.subperm_of_subset hnd hsub).length_le
  simp only [List.length_cons, List.length_nil, GoMap.keys, List.length_map] at hle
  omega

theorem newService_Origin (Hostname : String) (config : Config) (sp : ServicePort)
    (isGroup : Bool) (svc : Service) (h : newService lower Hostname config sp isGroup = some svc) :
    svc.Origin = sp := by
  unfold newService at h
  simp only at h
  split at h
  · cases h
  · split at h
    · cases h
    · split at h
      · cases h
      · simp only [Option.some.injEq] at h
        subst h
        rfl

theorem serviceMetaData_unmarked (envs : List EnvMetadata) (port x : String)
    (h : ∀ e ∈ envs, scopedAttr lower port e ≠ some x) :
    (envs.foldl (metaStep lower port) ([], [])).2.get? x ≠ some true := by
  intro hm
  rcases foldl_metaStep_mark_origin port envs x _ hm with h0 | ⟨kv, hkv, h1⟩
  · simp [GoMap.get?] at h0
  · exact h kv hkv h1

theorem newService_name_global (Hostname : String) (config : Config) (sp : ServicePort)
    (isGroup : Bool) (svc : Service) (g : EnvMetadata) (pre post : List EnvMetadata)
    (henv : sp.container.ContainerMetadata.Metadata.Config.Envs = pre ++ g :: post)
    (hg : globalAttr lower g = some "name") (hpost : ∀ kv ∈ post, globalAttr lower kv ≠ some "name")
    (hno : ∀ e ∈ sp.container.ContainerMetadata.Metadata.Config.Envs,
      scopedAttr lower sp.ExposedPort e ≠ some "name")
    (h : newService lower Hostname config sp isGroup = some svc) :
    svc.Name = if isGroup = true then g.Value ++ "-" ++ sp.ExposedPort else g.Value := by
  have hget : (serviceMetaData lower sp.container sp.ExposedPort).1.get? "name" = some g.Value :=
    serviceMetaData_global _ pre post g sp.ExposedPort "name" henv hg hpost hno
  have hmark : (serviceMetaData lower sp.container sp.ExposedPort).2.get? "name" ≠ some true :=
    serviceMetaData_unmarked _ sp.ExposedPort "name" hno
  rw [(newService_some Hostname config sp isGroup svc h).1, mapDefault_of_get? _ _ _ hget]
  cases isGroup
  · simp
  · simp [hmark]

theorem newService_name_scoped (Hostname : String) (config : Config) (sp : ServicePort)
    (isGroup : Bool) (svc : Service) (s : EnvMetadata) (pre post : List EnvMetadata)
    (henv : sp.container.ContainerMetadata.Metadata.Config.Envs = pre ++ s :: post)
    (hs : scopedAttr lower sp.ExposedPort s = some "name")
    (hpost : ∀ e ∈ post, scopedAttr lower sp.ExposedPort e ≠ some "name")
    (hcol : ∀ e ∈ pre, scopedAttr lower sp.ExposedPort e ≠ attrKey lower s)
    (h : newService lower Hostname config sp isGroup = some svc) :
    svc.Name = s.Value := by
  obtain ⟨hget, hmark⟩ :=
    serviceMetaData_scoped _ pre post s sp.ExposedPort "name" henv hs hpost hcol
  have hget' : (serviceMetaData lower sp.container sp.ExposedPort).1.get? "name" = some s.Value := hget
  have hmark' : (serviceMetaData lower sp.container sp.ExposedPort).2.get? "name" = some true := hmark
  rw [(newService_some Hostname config sp isGroup svc h).1, mapDefault_of_get? _ _ _ hget',
    if_neg (by simp [hmark'])]

theorem add_live_built (env : Env) (rt : Runtime) (b : Bridge) (id : String) (quiet : Bool)
    (c : K8SScheduleContainer) (hc : getK8SScheduleContainer rt id = .ok (some c))
    (hlive : id ∉ b.services.keys) (hdead : id ∉ b.deadContainers.keys) (svc : Service)
    (hsvc : svc ∈ (add env rt b id quiet).live id) :
    ∃ kv ∈ extractK8SSchedulePorts env.lower env.unmarshalPorts c,
      newService env.lower env.Hostname b.config kv.2
        (decide ((extractK8SSchedulePorts env.lower env.unmarshalPorts c).length > 1)) = some svc := by
  have hd : b.deadContainers.get? id = none := (GoMap.get?_eq_none_iff _ _).2 hdead
  have hl : b.live id = [] := by
    simp [Bridge.live, (GoMap.get?_eq_none_iff _ _).2 hlive]
  have hr : addResurrect b id = b := by
    unfold addResurrect
    rw [hd]
  have hid : c.ID = id := getK8SScheduleContainer_ID rt id c hc
  rw [add_eq, hr, if_neg (by simp [hl]), hc] at hsvc
  simp only at hsvc
  split at hsvc
  · rw [hl] at hsvc
    cases hsvc
  · obtain ⟨_, h2⟩ := foldl_addPort_spec env c
      (decide ((extractK8SSchedulePorts env.lower env.unmarshalPorts c).length > 1))
      (rangeOrder rt.picks (extractK8SSchedulePorts env.lower env.unmarshalPorts c)) b
    rw [hid, hl, List.nil_append] at h2
    rw [h2] at hsvc
    have hb := (accepted_sublist env.registry _ b.calls).subset hsvc
    unfold builtServices at hb
    rw [List.mem_filterMap] at hb
    obtain ⟨kv, hkv, hnew⟩ := hb
    exact ⟨kv, (mem_rangeOrder _ _ _).1 hkv, hnew⟩

/-- C11 (amended): let a container declare at least two distinct ports and set
the name globally, `g` being the last entry that does so.  For every port that
`add` extracts, with `isGroup` as `add` computes it, the service that
`newService` builds has `Name` the value of `g` followed by `-` and the exposed
port (the decimal string of a declared container port) when no entry sets the
name port-scoped for that port; and when the entry `s` is the last one that sets
the name port-scoped for that port, and no entry before `s` sets, port-scoped for
that port, an attribute whose name is the whole lower-cased key of `s` after the
prefix, the `Name` is the value of `s` with no suffix.  The first part holds for
every service that `add` records for a container id that was in neither map. -/
theorem group_service_names (lower : Char → Char)
    (unmarshal : String → Option (List PortMapping))
    (c : K8SScheduleContainer) (pms : List PortMapping) (g : EnvMetadata)
    (pre post : List EnvMetadata) (pm₁ pm₂ : PortMapping)
    (hparse : unmarshal (portsJSON c) = some pms)
    (h₁ : pm₁ ∈ pms) (h₂ : pm₂ ∈ pms) (hne : pm₁.ContainerPort ≠ pm₂.ContainerPort)
    (henv : c.ContainerMetadata.Metadata.Config.Envs = pre ++ g :: post)
    (hg : globalAttr lower g = some "name") (hpost : ∀ kv ∈ post, globalAttr lower kv ≠ some "name") :
    (∀ (Hostname : String) (config : Config), ∀ kv ∈ extractK8SSchedulePorts lower unmarshal c,
      ∀ svc : Service,
        newService lower Hostname config kv.2
          (decide ((extractK8SSchedulePorts lower unmarshal c).length > 1)) = some svc →
        (∃ pm ∈ pms, kv.2.ExposedPort = itoa pm.ContainerPort) ∧
        ((∀ e ∈ c.ContainerMetadata.Metadata.Config.Envs,
            scopedAttr lower kv.2.ExposedPort e ≠ some "name") →
          svc.Name = g.Value ++ "-" ++ kv.2.ExposedPort) ∧
        (∀ (s : EnvMetadata) (pre' post' : List EnvMetadata),
          c.ContainerMetadata.Metadata.Config.Envs = pre' ++ s :: post' →
          scopedAttr lower kv.2.ExposedPort s = some "name" →
          (∀ e ∈ post', scopedAttr lower kv.2.ExposedPort e ≠ some "name") →
          (∀ e ∈ pre', scopedAttr lower kv.2.ExposedPort e ≠ attrKey lower s) →
          svc.Name = s.Value)) ∧
    (∀ (env : Env) (rt : Runtime) (b : Bridge) (id : String) (quiet : Bool),
      env.lower = lower → env.unmarshalPorts = unmarshal →
      getK8SScheduleContainer rt id = .ok (some c) →
      id ∉ b.services.keys → id ∉ b.deadContainers.keys →
      ∀ svc ∈ (add env rt b id quiet).live id,
        (∀ e ∈ c.ContainerMetadata.Metadata.Config.Envs,
            scopedAttr lower svc.Origin.ExposedPort e ≠ some "name") →
          svc.Name = g.Value ++ "-" ++ svc.Origin.ExposedPort) := by
  have main : ∀ (Hostname : String) (config : Config),
      ∀ kv ∈ extractK8SSchedulePorts lower unmarshal c, ∀ svc : Service,
        newService lower Hostname config kv.2
          (decide ((extractK8SSchedulePorts lower unmarshal c).length > 1)) = some svc →
        (∃ pm ∈ pms, kv.2.ExposedPort = itoa pm.ContainerPort) ∧
        ((∀ e ∈ c.ContainerMetadata.Metadata.Config.Envs,
            scopedAttr lower kv.2.ExposedPort e ≠ some "name") →
          svc.Name = g.Value ++ "-" ++ kv.2.ExposedPort) ∧
        (∀ (s : EnvMetadata) (pre' post' : List EnvMetadata),
          c.ContainerMetadata.Metadata.Config.Envs = pre' ++ s :: post' →
          scopedAttr lower kv.2.ExposedPort s = some "name" →
          (∀ e ∈ post', scopedAttr lower kv.2.ExposedPort e ≠ some "name") →
          (∀ e ∈ pre', scopedAttr lower kv.2.ExposedPort e ≠ attrKey lower s) →
          svc.Name = s.Value) := by
    intro Hostname config kv hkv svc hsvc
    rcases extract_cases unmarshal c with hnil | ⟨hignore, hjson, pms', hparse'⟩
    · rw [hnil] at hkv
      cases hkv
    · have hp : pms' = pms := Option.some.inj (hparse'.symm.trans hparse)
      subst hp
      have hlen := @extract_length_two lower unmarshal c pms' hignore hjson hparse' pm₁ pm₂ h₁ h₂ hne
      have hgroup : decide ((extractK8SSchedulePorts lower unmarshal c).length > 1) = true := by
        simpa using hlen
      rw [hgroup] at hsvc
      obtain ⟨pre₀, pm, post₀, hl, _, hk⟩ :=
        extract_mem unmarshal c pms' hignore hjson hparse' kv hkv
      have hpm : pm ∈ pms' := by
        rw [hl]
        exact List.mem_append_right _ (List.mem_cons_self _ _)
      have hcont : kv.2.container = c := by rw [hk]; rfl
      have hport : kv.2.ExposedPort = itoa pm.ContainerPort := by rw [hk]; rfl
      refine ⟨⟨pm, hpm, hport⟩, ?_, ?_⟩
      · intro hno
        have h := newService_name_global Hostname config kv.2 true svc g pre post
          (by rw [hcont]; exact henv) hg hpost (by rw [hcont]; exact hno) hsvc
        simpa using h
      · intro s pre' post' henv' hs hpost' hcol
        exact newService_name_scoped Hostname config kv.2 true svc s pre' post'
          (by rw [hcont]; exact henv') hs hpost' hcol hsvc
  refine ⟨main, ?_⟩
  intro env rt b id quiet hlow hum hc hlive hdead svc hsvc hno
  obtain ⟨kv, hkv, hnew⟩ := add_live_built env rt b id quiet c hc hlive hdead svc hsvc
  rw [hlow, hum] at hkv hnew
  have horigin := newService_Origin _ _ _ _ _ hnew
  rw [horigin] at hno ⊢
  exact (main env.Hostname b.config kv hkv svc hnew).2.1 hno

/-- Witness of `group_service_names`: the example container declares `80/TCP`
and `53/UDP`, sets the name `web` globally and the name `dns` for port 53; the
service of port 80 is named `web-80` and the service of port 53 is named `dns`. -/
theorem group_service_names_witness :
    (newService exLower "host1" exConfig (servicePortOf exLower exGroup port80) true).map Service.Name =
      some "web-80" ∧
    (newService exLower "host1" exConfig (servicePortOf exLower exGroup port53) true).map Service.Name =
      some "dns" := by
  have h := (group_service_names exLower (exUnmarshal [port80, port53]) exGroup
    [port80, port53]
    ⟨"SERVICE_NAME", "web"⟩ [] [⟨"SERVICE_53_NAME", "dns"⟩] port80 port53
    (by decide) (by decide) (by decide) (by decide) rfl (by decide) (by decide)).1
    "host1" exConfig
  have hlen : decide ((extractK8SSchedulePorts exLower (exUnmarshal [port80, port53]) exGroup).length > 1)
      = true := by decide
  rw [hlen] at h
  constructor
  · cases hsvc : newService exLower "host1" exConfig (servicePortOf exLower exGroup port80) true with
    | none => exact absurd hsvc (by decide)
    | some svc =>
      have hn := (h ("80", servicePortOf exLower exGroup port80) (by decide) svc hsvc).2.1 (by decide)
      rw [Option.map_some', hn]
      decide
  · cases hsvc : newService exLower "host1" exConfig (servicePortOf exLower exGroup port53) true with
    | none => exact absurd hsvc (by decide)
    | some svc =>
      have hn := (h ("53", servicePortOf exLower exGroup port53) (by decide) svc hsvc).2.2
        ⟨"SERVICE_53_NAME", "dns"⟩ [⟨"SERVICE_NAME", "web"⟩] [] rfl (by decide) (by decide)
        (by decide)
      rw [Option.map_some', hn]

/-- C11 as stated fails: the container declares two ports and supplies the name
for port 80 port-scoped (`SERVICE_80_NAME=api`), but an earlier entry
`SERVICE_80_80_NAME=t` has marked the key `80_name`; the port-scoped entry is
skipped and the service of port 80 is named `web-80`. -/
theorem group_service_names_counterexample :
    scopedAttr exLower "80" ⟨"SERVICE_80_NAME", "api"⟩ = some "name" ∧
    (extractK8SSchedulePorts exLower (exUnmarshal [port80, port53]) exCollision).keys = ["80", "53"] ∧
    (((extractK8SSchedulePorts exLower (exUnmarshal [port80, port53]) exCollision).get? "80").bind
      fun sp => newService exLower "host1" exConfig sp
        (decide ((extractK8SSchedulePorts exLower (exUnmarshal [port80, port53]) exCollision).length >
          1))).map Service.Name = some "web-80" := by
  decide

/-! ## Default IDs and the service-ID pattern -/

theorem takeWhile_dropWhile_append (p : Char → Bool) (a r : List Char)
    (ha : ∀ c ∈ a, p c = true) (hr : r = [] ∨ ∃ x t, r = x :: t ∧ p x = false) :
    (a ++ r).takeWhile p = a ∧ (a ++ r).dropWhile p = r := by
  induction a with
  | nil =>
    rcases hr with rfl | ⟨x, t, rfl, hx⟩
    · exact ⟨rfl, rfl⟩
    · simp [List.takeWhile, List.dropWhile, hx]
  | cons c a ih =>
    have hc : p c = true := ha c (List.mem_cons_self _ _)
    obtain ⟨h1, h2⟩ := ih fun d hd => ha d (List.mem_cons_of_mem _ hd)
    simp [List.takeWhile, List.dropWhile, hc, h1, h2]

theorem matchPortTail_digits (ds sfx : List Char) (hne : ds ≠ [])
    (hds : ∀ c ∈ ds, c.isDigit = true) (hsfx : sfx = [] ∨ sfx = ":udp".data) :
    matchPortTail (ds ++ sfx) = true := by
  have hr : sfx = [] ∨ ∃ x t, sfx = x :: t ∧ Char.isDigit x = false := by
    rcases hsfx with h | h
    · exact Or.inl h
    · exact Or.inr ⟨':', "udp".data, h, by decide⟩
  obtain ⟨h1, h2⟩ := takeWhile_dropWhile_append Char.isDigit ds sfx hds hr
  unfold matchPortTail
  rw [h1, h2]
  have hemp : ds.isEmpty = false := by
    cases ds with
    | nil => exact absurd rfl hne
    | cons d ds => rfl
  rcases hsfx with h | h
  · simp [hemp, h]
  · simp [hemp, h]

theorem matchNameTail_name (c d : Char) (run t : List Char) (hc : isAlnum c = true)
    (hrun : ∀ x ∈ d :: run, isNameChar x = true) (ht : matchPortTail t = true) :
    matchNameTail (c :: d :: run ++ ':' :: t) = some (c :: d :: run) := by
  obtain ⟨h1, h2⟩ := takeWhile_dropWhile_append isNameChar (d :: run) (':' :: t) hrun
    (Or.inr ⟨':', t, rfl, by decide⟩)
  show matchNameTail (c :: (d :: run ++ ':' :: t)) = some (c :: d :: run)
  simp only [matchNameTail]
  rw [if_pos hc, h1, h2]
  simp [ht]

theorem matchHost_isSome (rest : List Char) (hrest : (matchNameTail rest).isSome = true)
    (h : List Char) :
    ∀ acc : List Char, acc ++ h ≠ [] → (∀ c ∈ h, c ≠ '\n') →
      (matchHost acc (h ++ ':' :: rest)).isSome = true := by
  induction h with
  | nil =>
    intro acc hne _
    have hacc : acc ≠ [] := by simpa using hne
    obtain ⟨name, hname⟩ := Option.isSome_iff_exists.1 hrest
    simp [matchHost, hacc, hname]
  | cons x h ih =>
    intro acc _ hnl
    have hx : x ≠ '\n' := hnl x (List.mem_cons_self _ _)
    have hrec := ih (acc ++ [x]) (by simp) fun c hc => hnl c (List.mem_cons_of_mem _ hc)
    show (matchHost acc (x :: (h ++ ':' :: rest))).isSome = true
    unfold matchHost
    split
    · rfl
    · rw [if_neg hx]
      exact hrec

theorem serviceIDPattern_default (Hostname name : String) (k : Nat) (sfx : String)
    (hhost : isHostText Hostname = true) (hname : isNameText name = true)
    (hsfx : sfx = "" ∨ sfx = ":udp") :
    (serviceIDPattern (Hostname ++ ":" ++ name ++ ":" ++ itoa (Int.ofNat k) ++ sfx)).isSome =
      true := by
  have hdata : (Hostname ++ ":" ++ name ++ ":" ++ itoa (Int.ofNat k) ++ sfx).data =
      Hostname.data ++ ':' :: (name.data ++ ':' :: (Nat.toDigits 10 k ++ sfx.data)) := by
    simp [String.data_append, itoa]
  have hport : matchPortTail (Nat.toDigits 10 k ++ sfx.data) = true := by
    apply matchPortTail_digits _ _ (toDigits_ne_nil k) (toDigits_isDigit k)
    rcases hsfx with h | h
    · exact Or.inl (by rw [h])
    · exact Or.inr (by rw [h])
  unfold isNameText at hname
  unfold isHostText at hhost
  simp only [Bool.and_eq_true, Bool.not_eq_true', List.all_eq_true, decide_eq_true_eq] at hhost
  have hrest : (matchNameTail (name.data ++ ':' :: (Nat.toDigits 10 k ++ sfx.data))).isSome =
      true := by
    split at hname
    · rename_i c d rest hnd
      simp only [Bool.and_eq_true, List.all_eq_true] at hname
      rw [hnd]
      have := matchNameTail_name c d rest _ hname.1 hname.2 hport
      simp only [List.cons_append] at this ⊢
      rw [this]
      rfl
    · cases hname
  have hne : ([] : List Char) ++ Hostname.data ≠ [] := by
    intro h
    have h0 : Hostname.data = [] := by simpa using h
    rw [h0] at hhost
    simp at hhost
  have hm := matchHost_isSome _ hrest Hostname.data [] hne hhost.2
  unfold serviceIDPattern
  rw [hdata, Option.isSome_map']
  exact hm

/-- The default ID on the inputs where it does match: let a container declare
exactly one port, a container port that is not negative, have the name attribute
`n` and set no `id` attribute for the port; let the local hostname be not empty
and without a line feed, and let the container name be a letter or digit followed
by at least one character of `[a-zA-Z0-9_.-]`.  Then the service that
`newService` builds for the port, with `isGroup` as `add` computes it, has `Name`
equal to `n` unaltered, and its ID matches the service-ID pattern of the dangling
sweep. -/
theorem default_id_matches (unmarshal : String → Option (List PortMapping))
    (c : K8SScheduleContainer) (pms : List PortMapping) (Hostname : String) (config : Config)
    (kv : String × ServicePort) (svc : Service) (n : String)
    (hparse : unmarshal (portsJSON c) = some pms)
    (hone : (extractK8SSchedulePorts lower unmarshal c).length = 1)
    (hkv : kv ∈ extractK8SSchedulePorts lower unmarshal c)
    (hname : (serviceMetaData lower c kv.2.ExposedPort).1.get? "name" = some n)
    (_hid : (serviceMetaData lower c kv.2.ExposedPort).1.get? "id" = none)
    (hsvc : newService lower Hostname config kv.2
      (decide ((extractK8SSchedulePorts lower unmarshal c).length > 1)) = some svc)
    (hhost : isHostText Hostname = true) (hcn : isNameText c.Name = true)
    (hports : ∀ pm ∈ pms, 0 ≤ pm.ContainerPort) :
    svc.Name = n ∧ (serviceIDPattern svc.ID).isSome = true := by
  have hgroup : decide ((extractK8SSchedulePorts lower unmarshal c).length > 1) = false := by
    rw [hone]
    decide
  rw [hgroup] at hsvc
  rcases extract_cases unmarshal c with hnil | ⟨hignore, hjson, pms', hparse'⟩
  · rw [hnil] at hkv
    cases hkv
  · have hp : pms' = pms := Option.some.inj (hparse'.symm.trans hparse)
    subst hp
    obtain ⟨pre₀, pm, post₀, hl, _, hk⟩ :=
      extract_mem unmarshal c pms' hignore hjson hparse' kv hkv
    have hpm : pm ∈ pms' := by
      rw [hl]
      exact List.mem_append_right _ (List.mem_cons_self _ _)
    have hcont : kv.2.container = c := by rw [hk]; rfl
    have hport : kv.2.ExposedPort = itoa pm.ContainerPort := by rw [hk]; rfl
    obtain ⟨k, hkn⟩ := Int.eq_ofNat_of_zero_le (hports pm hpm)
    constructor
    · rw [(newService_some Hostname config kv.2 false svc hsvc).1, hcont]
      simp only [Bool.false_eq_true, false_and, if_false]
      exact mapDefault_of_get? _ _ _ hname
    · rw [(newService_ID_Tags Hostname config kv.2 false svc hsvc).1, hcont, hport, hkn]
      split
      · exact serviceIDPattern_default Hostname c.Name k ":udp" hhost hcn (Or.inr rfl)
      · have h := serviceIDPattern_default Hostname c.Name k "" hhost hcn (Or.inl rfl)
        simpa using h

/-- An instance of `default_id_matches`: on host `host1` the example container
`app` with `SERVICE_NAME=web` and the single port `80/TCP` gives a service named
`web` whose ID matches the pattern. -/
theorem default_id_matches_example :
    (newService exLower "host1" exConfig (servicePortOf exLower exSingle port80) false).map Service.Name =
      some "web" ∧
    ((newService exLower "host1" exConfig (servicePortOf exLower exSingle port80) false).bind fun svc =>
      serviceIDPattern svc.ID).isSome = true := by
  cases hsvc : newService exLower "host1" exConfig (servicePortOf exLower exSingle port80) false with
  | none => exact absurd hsvc (by decide)
  | some svc =>
    have h := default_id_matches (exUnmarshal [port80]) exSingle [port80] "host1" exConfig
      ("80", servicePortOf exLower exSingle port80) svc "web" (by decide) (by decide) (by decide)
      (by decide) (by decide) hsvc (by decide) (by decide) (by decide)
    exact ⟨by rw [Option.map_some', h.1], by rw [Option.some_bind]; exact h.2⟩

/-- C12, the code at the failing inputs: the example container declares the
single port `80/TCP`, has the name attribute `web` and no `id` or ignore
attribute, and `newService` is called with `isGroup = false`.  With the empty
local hostname, which the comment at `Hostname` allows, the service is named
`web` and its ID is `:app:80`; under the container name `a` on host `host1` it is
named `web` and its ID is `host1:a:80`.  Neither ID matches the service-ID
pattern of the dangling sweep. -/
theorem default_id_unmatched :
    extractK8SSchedulePorts exLower (exUnmarshal [port80]) exSingle =
      [("80", servicePortOf exLower exSingle port80)] ∧
    (serviceMetaData exLower exSingle "80").1.get? "id" = none ∧
    (newService exLower "" exConfig (servicePortOf exLower exSingle port80) false).map
      (fun svc => (svc.Name, svc.ID)) = some ("web", ":app:80") ∧
    serviceIDPattern ":app:80" = none ∧
    (extractK8SSchedulePorts exLower (exUnmarshal [port80]) exShortName).length = 1 ∧
    (newService exLower "host1" exConfig (servicePortOf exLower exShortName port80) false).map
      (fun svc => (svc.Name, svc.ID)) = some ("web", "host1:a:80") ∧
    serviceIDPattern "host1:a:80" = none := by
  decide

end Registrator
